import Mathlib

/-!
Verification of the multi-agent code-review core: a shallow embedding of
`diff_parser.py` (`DiffParser.parse_diff`), `models.py` (`ReviewComment`,
`CodeDiff`, `ReviewCategory`), `agents.py` (`ReviewAgent._parse_response`,
`ReviewAgent.__init__` / `_get_llm`, `MultiAgentReviewer.review_diff` /
`review_diffs`) and `config.py` (`Settings`).

Text is represented as `List Char` (Python `str`).  Python's `json.loads`
and the fenced-code-block regex search of `_parse_response` are external
library calls; they are abstracted as oracle parameters (`jsonLoads`,
`fencedSearch`) over an explicit JSON value type, so theorems either hold
for every oracle or instantiate the oracle at explicitly displayed values.
The per-agent LLM invocation is likewise abstracted as an oracle
`invoke : CodeDiff → ReviewCategory → Nat → Except (List Char) (List Char)`
(per record, per agent, per retry attempt), returning either the reply text
or the exception message, exactly the two outcomes `agent.review` can have.
-/

/-- Tests whether `pre` is a prefix of `s` (Python `str.startswith`). -/
def startsWith : List Char → List Char → Bool
  | [], _ => true
  | _ :: _, [] => false
  | p :: ps, c :: cs => p = c && startsWith ps cs

/-- Substring test (Python `pat in s`). -/
def containsSub (pat : List Char) : List Char → Bool
  | [] => pat.isEmpty
  | c :: r => startsWith pat (c :: r) || containsSub pat r

/-- Python `s.split('\n')`: always returns at least one (possibly empty) line. -/
def splitLines : List Char → List (List Char)
  | [] => [[]]
  | c :: rest =>
    if c = '\n' then [] :: splitLines rest
    else
      match splitLines rest with
      | [] => [[c]]
      | l :: ls => (c :: l) :: ls

/-- Python `'\n'.join(lines)`. -/
def joinLines : List (List Char) → List Char
  | [] => []
  | [l] => l
  | l :: ls => l ++ '\n' :: joinLines ls

/-- Python whitespace characters stripped by `str.strip()`. -/
def isSpaceChar (c : Char) : Bool :=
  c = ' ' || c = '\t' || c = '\n' || c = '\r' || c = '\x0b' || c = '\x0c'

/-- Python `s.strip()`. -/
def stripChars (s : List Char) : List Char :=
  ((s.dropWhile isSpaceChar).reverse.dropWhile isSpaceChar).reverse

/-- Python `s.lower()` (per-character, ASCII suffices here). -/
def lowerStr (s : List Char) : List Char := s.map Char.toLower

/-- Numeric value of a digit run (used for `int(...)` of matched `\d+` groups). -/
def natOfDigits (ds : List Char) : Nat :=
  ds.foldl (fun a c => a * 10 + (c.toNat - 48)) 0

/-- Splits off the maximal leading run of decimal digits (regex `\d*`). -/
def digitSpan : List Char → List Char × List Char
  | [] => ([], [])
  | c :: cs =>
    if c.isDigit then
      match digitSpan cs with
      | (d, r) => (c :: d, r)
    else ([], c :: cs)

/-- Matches regex `\d+` at the front: the parsed number and the rest. -/
def parseNum (s : List Char) : Option (Nat × List Char) :=
  match digitSpan s with
  | ([], _) => none
  | (ds, r) => some (natOfDigits ds, r)

/-- Consumes a literal at the front of the input, or fails. -/
def dropLit : List Char → List Char → Option (List Char)
  | [], s => some s
  | _ :: _, [] => none
  | p :: ps, c :: cs => if p = c then dropLit ps cs else none

/-! ## Data model (`models.py`) -/

/-- Categories of code review issues (`ReviewCategory`, a closed enum). -/
inductive ReviewCategory where
  | logic
  | readability
  | performance
  | security
  | best_practices
  | testing
deriving DecidableEq, Repr

/-- The `.value` of the Python `str`-valued enum member. -/
def ReviewCategory.value : ReviewCategory → List Char
  | .logic => "logic".toList
  | .readability => "readability".toList
  | .performance => "performance".toList
  | .security => "security".toList
  | .best_practices => "best_practices".toList
  | .testing => "testing".toList

/-- Python `category.value.title()` for the six enum members. -/
def ReviewCategory.titled : ReviewCategory → List Char
  | .logic => "Logic".toList
  | .readability => "Readability".toList
  | .performance => "Performance".toList
  | .security => "Security".toList
  | .best_practices => "Best_Practices".toList
  | .testing => "Testing".toList

/-- Individual review comment (`ReviewComment`).  `severity` stays a string,
as in the pydantic model, whose `Literal` annotation is enforced at
construction time by `mkReviewComment` below. -/
structure ReviewComment where
  file_path : List Char
  line_number : Int
  category : ReviewCategory
  severity : List Char
  title : List Char
  description : List Char
  code_snippet : Option (List Char)
  suggestion : Option (List Char)
deriving DecidableEq, Repr

/-- The four values admitted by the `Literal` type of `ReviewComment.severity`. -/
def validSeverities : List (List Char) :=
  ["critical".toList, "major".toList, "minor".toList, "suggestion".toList]

/-- Represents a code diff (`CodeDiff`). -/
structure CodeDiff where
  file_path : List Char
  old_content : Option (List Char)
  new_content : Option (List Char)
  added_lines : List Nat
  removed_lines : List Nat
  diff_text : List Char
deriving DecidableEq, Repr

/-! ## JSON values

Value type for replies of Python's `json.loads`.  Numbers are modelled as
integers (none of the verified behaviours depends on float payloads). -/

inductive Json where
  | null
  | bool (b : Bool)
  | num (n : Int)
  | str (s : List Char)
  | arr (elems : List Json)
  | obj (fields : List (List Char × Json))
deriving Repr

/-- Dictionary lookup, `d[k]` for the parsed-JSON dicts handled here. -/
def jLookup (k : List Char) : List (List Char × Json) → Option Json
  | [] => none
  | (k', v) :: r => if k' = k then some v else jLookup k r

/-- Python `int(x)` on a JSON value: ints pass through, bools coerce to 0/1,
strings parse as optionally signed decimal (surrounding whitespace allowed);
anything else raises, i.e. yields `none`. -/
def pyInt : Json → Option Int
  | .num n => some n
  | .bool b => some (if b then 1 else 0)
  | .str s =>
    let t := stripChars s
    match t with
    | '-' :: r => if r ≠ [] ∧ r.all Char.isDigit then some (-(natOfDigits r : Int)) else none
    | '+' :: r => if r ≠ [] ∧ r.all Char.isDigit then some ((natOfDigits r : Int)) else none
    | r => if r ≠ [] ∧ r.all Char.isDigit then some ((natOfDigits r : Int)) else none
  | _ => none

/-- Pydantic `Optional[str]` field validation. -/
def optStr : Json → Option (Option (List Char))
  | .null => some none
  | .str s => some (some s)
  | _ => none

/-- Pydantic validation of a `ReviewComment` construction: `severity` must be
one of the four literals, `title` and `description` must be strings,
`code_snippet` and `suggestion` must be strings or `None`; otherwise the
constructor raises (`none`). -/
def mkReviewComment (fp : List Char) (ln : Int) (cat : ReviewCategory)
    (sev title descr snip sugg : Json) : Option ReviewComment :=
  match sev, title, descr with
  | .str s, .str t, .str d =>
    if s ∈ validSeverities then
      match optStr snip, optStr sugg with
      | some sn, some sg =>
        some { file_path := fp, line_number := ln, category := cat, severity := s,
               title := t, description := d, code_snippet := sn, suggestion := sg }
      | _, _ => none
    else none
  | _, _, _ => none

/-! ## Diff parsing engine (`diff_parser.py`) -/

/-- Literal tokens tested by `parse_diff`. -/
def hdrTok : List Char := "diff --git".toList

/-- Old-file marker prefix `---`. -/
def minus3 : List Char := "---".toList

/-- New-file marker prefix `+++`. -/
def plus3 : List Char := "+++".toList

/-- Hunk marker prefix `@@`. -/
def atat : List Char := "@@".toList

/-- Old-file path pattern prefix `--- a/`. -/
def pathMarker : List Char := "--- a/".toList

/-- Result of `re.search(r'^--- a/(.+)$', line)`: the captured path, which the
pattern requires to be non-empty. -/
def pathOf (line : List Char) : Option (List Char) :=
  if startsWith pathMarker line ∧ line.drop 6 ≠ [] then some (line.drop 6) else none

/-- After the first `\d+` of the hunk regex, the optional group `(?:,(\d+))?`:
consumed when a comma followed by at least one digit is present.  (When the
group is present, the non-consuming regex alternative dies immediately on the
following literal, so greedy consumption is exact.) -/
def skipCount (s : List Char) : List Char :=
  match s with
  | ',' :: r =>
    match digitSpan r with
    | ([], _) => s
    | (_, r2) => r2
  | _ => s

/-- Attempts to match `@@ -(\d+)(?:,(\d+))? \+(\d+)(?:,(\d+))? @@` at the
start of `s`; returns the two captured start numbers. -/
def matchHunkAt (s : List Char) : Option (Nat × Nat) :=
  match dropLit ("@@ -".toList) s with
  | none => none
  | some s1 =>
    match parseNum s1 with
    | none => none
    | some (o, s2) =>
      match dropLit (" +".toList) (skipCount s2) with
      | none => none
      | some s4 =>
        match parseNum s4 with
        | none => none
        | some (n, s5) =>
          match dropLit (" @@".toList) (skipCount s5) with
          | none => none
          | some _ => some (o, n)

/-- `re.search` of the hunk pattern: first position (left to right) where it
matches. -/
def hunkSearch : List Char → Option (Nat × Nat)
  | [] => matchHunkAt []
  | c :: r =>
    match matchHunkAt (c :: r) with
    | some x => some x
    | none => hunkSearch r

/-- Loop state of `DiffParser.parse_diff`, one field per local accumulator. -/
structure ParseState where
  diffs : List CodeDiff
  current_diff_lines : List (List Char)
  current_file_path : Option (List Char)
  added_lines : List Nat
  removed_lines : List Nat
  old_content_lines : List (List Char)
  new_content_lines : List (List Char)
  in_hunk : Bool
  old_line_num : Nat
  new_line_num : Nat
deriving Repr

/-- Initial accumulator values of `parse_diff`. -/
def initState : ParseState :=
  { diffs := [], current_diff_lines := [], current_file_path := none,
    added_lines := [], removed_lines := [], old_content_lines := [],
    new_content_lines := [], in_hunk := false, old_line_num := 0, new_line_num := 0 }

/-- The `if current_file_path and current_diff_lines: diffs.append(CodeDiff(...))`
block, shared by the file-header branch and the end of the loop.  Python
truthiness: the path must be a non-`None` (necessarily non-empty) string and
the accumulated line list non-empty; empty content line lists yield `None`. -/
def flushDiffs (s : ParseState) : List CodeDiff :=
  match s.current_file_path with
  | some p =>
    if s.current_diff_lines ≠ [] then
      s.diffs ++ [{ file_path := p,
                    old_content := if s.old_content_lines ≠ [] then
                        some (joinLines s.old_content_lines) else none,
                    new_content := if s.new_content_lines ≠ [] then
                        some (joinLines s.new_content_lines) else none,
                    added_lines := s.added_lines,
                    removed_lines := s.removed_lines,
                    diff_text := joinLines s.current_diff_lines }]
    else s.diffs
  | none => s.diffs

/-- One iteration of the `for line in diff_text.split('\n')` loop of
`parse_diff`, branch for branch.  Note that the file-header branch resets
every accumulator except `current_file_path`, which the source never resets. -/
def processLine (s : ParseState) (line : List Char) : ParseState :=
  if startsWith hdrTok line then
    { diffs := flushDiffs s, current_diff_lines := [line],
      current_file_path := s.current_file_path,
      added_lines := [], removed_lines := [], old_content_lines := [],
      new_content_lines := [], in_hunk := false, old_line_num := 0, new_line_num := 0 }
  else if startsWith minus3 line then
    { s with
      current_file_path :=
        (match pathOf line with
         | some p => some p
         | none => s.current_file_path),
      current_diff_lines := s.current_diff_lines ++ [line] }
  else if startsWith plus3 line then
    { s with current_diff_lines := s.current_diff_lines ++ [line] }
  else if startsWith atat line then
    { s with
      in_hunk := true,
      old_line_num := (match hunkSearch line with | some (o, _) => o | none => s.old_line_num),
      new_line_num := (match hunkSearch line with | some (_, n) => n | none => s.new_line_num),
      current_diff_lines := s.current_diff_lines ++ [line] }
  else if s.in_hunk = false then
    { s with current_diff_lines := s.current_diff_lines ++ [line] }
  else if startsWith ("+".toList) line && !startsWith plus3 line then
    { s with
      added_lines := s.added_lines ++ [s.new_line_num],
      new_content_lines := s.new_content_lines ++ [line.drop 1],
      new_line_num := s.new_line_num + 1,
      current_diff_lines := s.current_diff_lines ++ [line] }
  else if startsWith ("-".toList) line && !startsWith minus3 line then
    { s with
      removed_lines := s.removed_lines ++ [s.old_line_num],
      old_content_lines := s.old_content_lines ++ [line.drop 1],
      old_line_num := s.old_line_num + 1,
      current_diff_lines := s.current_diff_lines ++ [line] }
  else if startsWith (" ".toList) line then
    { s with
      old_line_num := s.old_line_num + 1, new_line_num := s.new_line_num + 1,
      current_diff_lines := s.current_diff_lines ++ [line] }
  else
    { s with current_diff_lines := s.current_diff_lines ++ [line] }

/-- `DiffParser.parse_diff`: scan all lines, then flush the last file. -/
def parse_diff (diff_text : List Char) : List CodeDiff :=
  flushDiffs ((splitLines diff_text).foldl processLine initState)

/-! ## Response extractor (`ReviewAgent._parse_response`) -/

/-- Per-element Finding construction of tier 1 (and, textually identical, of
tier 2): `comment_data` must be a dict (anything else raises on `.get`);
`int(comment_data.get("line_number", 0))` raises (`none`) when the present
value cannot be coerced; the remaining fields default when absent and then
pass through pydantic validation. -/
def buildComment (fp : List Char) (cat : ReviewCategory) (j : Json) : Option ReviewComment :=
  match j with
  | .obj fields =>
    match pyInt ((jLookup ("line_number".toList) fields).getD (.num 0)) with
    | none => none
    | some n =>
      mkReviewComment fp n cat
        ((jLookup ("severity".toList) fields).getD (.str ("minor".toList)))
        ((jLookup ("title".toList) fields).getD (.str ("Review Comment".toList)))
        ((jLookup ("description".toList) fields).getD (.str []))
        ((jLookup ("code_snippet".toList) fields).getD .null)
        ((jLookup ("suggestion".toList) fields).getD .null)
  | _ => none

/-- Tier 1: `data.get("comments", [])` iterated with a per-element
`try/except` that skips the failing element and continues.  Result `none`
models an exception escaping to the outer handler: `.get` on a non-dict
`data`, or iterating a non-iterable `comments` value.  A string or dict
`comments` value iterates (over characters resp. keys), but every such
element fails construction and is skipped. -/
def tier1Comments (fp : List Char) (cat : ReviewCategory) (data : Json) :
    Option (List ReviewComment) :=
  match data with
  | .obj fields =>
    match jLookup ("comments".toList) fields with
    | none => some []
    | some (.arr l) => some (l.filterMap (buildComment fp cat))
    | some (.str _) => some []
    | some (.obj _) => some []
    | some _ => none
  | _ => none

/-- Tier 2 element loop: same construction, but the single `try` wraps the
whole loop, so the first failing element aborts it, keeping only the comments
appended before the failure. -/
def buildStop (fp : List Char) (cat : ReviewCategory) : List Json → List ReviewComment
  | [] => []
  | j :: r =>
    match buildComment fp cat j with
    | some c => c :: buildStop fp cat r
    | none => []

/-- Tier 2: like tier 1 but under a bare `except: pass`, so nothing escapes
and a mid-loop failure keeps the prefix built so far. -/
def tier2Comments (fp : List Char) (cat : ReviewCategory) (data : Json) :
    List ReviewComment :=
  match data with
  | .obj fields =>
    match jLookup ("comments".toList) fields with
    | none => []
    | some (.arr l) => buildStop fp cat l
    | some _ => []
  | _ => []

/-- Index of the first `{` (Python `response_text.find('{')`). -/
def findOpenBrace (s : List Char) : Option Nat := List.findIdx? (fun c => c = '\x7b') s

/-- Index of the last `}` (Python `response_text.rfind('}')`). -/
def rfindCloseBrace (s : List Char) : Option Nat :=
  match List.findIdx? (fun c => c = '\x7d') s.reverse with
  | some k => some (s.length - 1 - k)
  | none => none

/-- The candidate JSON span `response_text[start_idx:end_idx + 1]`, available
only when both braces exist and `end_idx > start_idx`. -/
def extractSpan (text : List Char) : Option (List Char) :=
  match findOpenBrace text, rfindCloseBrace text with
  | some i, some j => if i < j then some ((text.drop i).take (j + 1 - i)) else none
  | _, _ => none

/-- Description of the tier-3 fallback comment: the stripped reply, cut to
1000 characters with an ellipsis appended when over the limit. -/
def fallbackDescription (text : List Char) : List Char :=
  let d := stripChars text
  if 1000 < d.length then d.take 1000 ++ "...".toList else d

/-- The tier-3 fallback comment (`title="Review Note"`). -/
def fallbackComment (fp : List Char) (cat : ReviewCategory) (text : List Char) :
    ReviewComment :=
  { file_path := fp, line_number := 0, category := cat, severity := "minor".toList,
    title := "Review Note".toList, description := fallbackDescription text,
    code_snippet := none, suggestion := none }

/-- The comment appended by the outer `except` handler of `_parse_response`:
the raw reply cut to 500 characters, or a placeholder for a falsy reply. -/
def exceptComment (fp : List Char) (cat : ReviewCategory) (text : List Char) :
    ReviewComment :=
  { file_path := fp, line_number := 0, category := cat, severity := "minor".toList,
    title := "Review Note".toList,
    description := if text = [] then "No response received".toList else text.take 500,
    code_snippet := none, suggestion := none }

/-- The tiered body of `_parse_response` up to (not including) the empty-check
fallback: `some cs` is the comment list when no exception reaches the outer
handler, `none` models an escaping exception.  Tier 2 runs only inside the
`except json.JSONDecodeError` branch, i.e. only when a span was found but
failed to parse. -/
def parseTiers (jsonLoads : List Char → Option Json)
    (fencedSearch : List Char → Option (List Char))
    (text fp : List Char) (cat : ReviewCategory) : Option (List ReviewComment) :=
  match extractSpan text with
  | none => some []
  | some sp =>
    match jsonLoads sp with
    | some data => tier1Comments fp cat data
    | none =>
      some (match fencedSearch text with
            | none => []
            | some g =>
              match jsonLoads g with
              | none => []
              | some d => tier2Comments fp cat d)

/-- `ReviewAgent._parse_response`, with `json.loads` and the fenced-code-block
regex search (returning its first capture group) abstracted as oracles. -/
def parseResponse (jsonLoads : List Char → Option Json)
    (fencedSearch : List Char → Option (List Char))
    (text fp : List Char) (cat : ReviewCategory) : List ReviewComment :=
  match parseTiers jsonLoads fencedSearch text fp cat with
  | some cs => if cs = [] then [fallbackComment fp cat text] else cs
  | none => [exceptComment fp cat text]

/-! ## Configuration and agent construction (`config.py`, `ReviewAgent.__init__`) -/

/-- The settings fields consulted by `ReviewAgent._get_llm`. -/
structure Settings where
  openai_api_key : Option (List Char)
  anthropic_api_key : Option (List Char)
  watsonx_api_key : Option (List Char)
  watsonx_project_id : Option (List Char)
  watsonx_url : Option (List Char)
  openrouter_api_key : Option (List Char)
  llm_provider : List Char
  model_name : List Char
deriving Repr

/-- Python truthiness of an optional credential string: `None` and `""` are
falsy. -/
def falsyOpt (o : Option (List Char)) : Bool :=
  match o with
  | none => true
  | some s => s.isEmpty

/-- The constructed LLM client value (transport behaviour is external). -/
inductive LLMClient where
  | openRouterChat (api_key model_id : List Char)
  | watsonxChat (api_key project_id url model_id : List Char)
  | chatAnthropic (model : List Char) (api_key : Option (List Char))
  | chatOpenAI (model : List Char) (api_key : Option (List Char))
deriving Repr

/-- Error message raised for a missing OpenRouter credential. -/
def openrouterKeyError : List Char :=
  ("OpenRouter API key is required. Please create a .env file with OPENROUTER_API_KEY. " ++
   "You can copy .env.example to .env and fill in your credentials.").toList

/-- Error message raised for missing watsonx credentials. -/
def watsonxKeyError : List Char :=
  ("Watsonx API key and project ID are required. Please create a .env file with " ++
   "WATSONX_API_KEY and WATSONX_PROJECT_ID. " ++
   "You can copy .env.example to .env and fill in your credentials.").toList

/-- Strips a leading protocol from the watsonx URL.  (The source uses
`str.replace`, which would also rewrite interior occurrences; for URLs
carrying the protocol only as a prefix, which is the shape the surrounding
code produces, the two agree.) -/
def stripProtocol (u : List Char) : List Char :=
  if startsWith ("http://".toList) u then u.drop 7
  else if startsWith ("https://".toList) u then u.drop 8
  else u

/-- `ReviewAgent._get_llm`: provider dispatch with credential checks for the
openrouter and watsonx providers; the anthropic/openai branches construct the
client without a local credential check. -/
def getLlm (s : Settings) : Except (List Char) LLMClient :=
  if s.llm_provider = "openrouter".toList then
    if falsyOpt s.openrouter_api_key then .error openrouterKeyError
    else .ok (.openRouterChat (s.openrouter_api_key.getD []) s.model_name)
  else if s.llm_provider = "watsonx".toList then
    if falsyOpt s.watsonx_api_key || falsyOpt s.watsonx_project_id then
      .error watsonxKeyError
    else
      .ok (.watsonxChat (s.watsonx_api_key.getD []) (s.watsonx_project_id.getD [])
        (stripProtocol (match s.watsonx_url with
                        | some u => if u = [] then "us-south.ml.cloud.ibm.com".toList else u
                        | none => "us-south.ml.cloud.ibm.com".toList))
        s.model_name)
  else if s.llm_provider = "anthropic".toList then
    .ok (.chatAnthropic
      (if containsSub ("claude".toList) s.model_name then s.model_name
       else "claude-3-opus-20240229".toList)
      s.anthropic_api_key)
  else
    .ok (.chatOpenAI
      (if containsSub ("gpt".toList) s.model_name then s.model_name
       else "gpt-4-turbo-preview".toList)
      s.openai_api_key)

/-- A review agent: category, instructions, and the lazily initialized client
field, `None` until first use. -/
structure ReviewAgent where
  category : ReviewCategory
  system_prompt : List Char
  _llm : Option LLMClient

/-- `ReviewAgent.__init__`: three plain field assignments; the client is not
built here. -/
def reviewAgentInit (category : ReviewCategory) (system_prompt : List Char) : ReviewAgent :=
  { category := category, system_prompt := system_prompt, _llm := none }

/-- `ReviewAgent.__init__` viewed as a fallible call: its body contains no
raising statement and consults no settings, so it always succeeds. -/
def reviewAgentInitE (category : ReviewCategory) (system_prompt : List Char) :
    Except (List Char) ReviewAgent :=
  .ok (reviewAgentInit category system_prompt)

/-- The `llm` property: returns the cached client or builds it on first
access, which is where a missing credential first raises. -/
def llmProperty (s : Settings) (a : ReviewAgent) : Except (List Char) (LLMClient × ReviewAgent) :=
  match a._llm with
  | some l => .ok (l, a)
  | none =>
    match getLlm s with
    | .ok l => .ok (l, { a with _llm := some l })
    | .error e => .error e

/-! ## Orchestrator (`MultiAgentReviewer`) -/

/-- `MultiAgentReviewer.get_agents_for_review`, by category: quick mode keeps
only the logic and security agents. -/
def get_agents_for_review (quick_mode : Bool) : List ReviewCategory :=
  if quick_mode then [.logic, .security]
  else [.logic, .readability, .performance, .security]

/-- Rate-limit classification of an error message: `"429" in error_str or
"rate_limit" in error_str.lower()`. -/
def isRateLimit (e : List Char) : Bool :=
  containsSub ("429".toList) e || containsSub ("rate_limit".toList) (lowerStr e)

/-- The message wrapper of `ReviewAgent.review`'s exception handler. -/
def wrapLlmError (cat : ReviewCategory) (e : List Char) : List Char :=
  "Error calling LLM for ".toList ++ cat.value ++ " review: ".toList ++ e

/-- The synthetic comment the orchestrator appends for a non-rate-limit agent
failure. -/
def errorComment (d : CodeDiff) (cat : ReviewCategory) (e : List Char) : ReviewComment :=
  { file_path := d.file_path, line_number := 0, category := cat,
    severity := "minor".toList,
    title := cat.titled ++ " Review Error".toList,
    description := "Could not complete ".toList ++ cat.value ++ " review: ".toList ++ e.take 200,
    code_snippet := none, suggestion := none }

/-- One attempted `agent.review(diff)` call: the invocation oracle yields the
reply text or an exception message (which `review` re-raises wrapped); a
reply is parsed by the (never-raising) extractor. -/
def agentCall (invoke : CodeDiff → ReviewCategory → Nat → Except (List Char) (List Char))
    (jsonLoads : List Char → Option Json) (fencedSearch : List Char → Option (List Char))
    (d : CodeDiff) (cat : ReviewCategory) (attempt : Nat) :
    Except (List Char) (List ReviewComment) :=
  match invoke d cat attempt with
  | .ok text => .ok (parseResponse jsonLoads fencedSearch text d.file_path cat)
  | .error e => .error (wrapLlmError cat e)

/-- The retry loop of `review_diff` for one agent (`max_retries = 2`): a
rate-limit failure is retried once and, on second rate-limit failure, skipped
silently; any other failure immediately yields the synthetic error comment. -/
def runAgent (invoke : CodeDiff → ReviewCategory → Nat → Except (List Char) (List Char))
    (jsonLoads : List Char → Option Json) (fencedSearch : List Char → Option (List Char))
    (d : CodeDiff) (cat : ReviewCategory) : List ReviewComment :=
  match agentCall invoke jsonLoads fencedSearch d cat 0 with
  | .ok cs => cs
  | .error e =>
    if isRateLimit e then
      match agentCall invoke jsonLoads fencedSearch d cat 1 with
      | .ok cs => cs
      | .error e2 => if isRateLimit e2 then [] else [errorComment d cat e2]
    else [errorComment d cat e]

/-- Value 1 for a critical severity, 0 otherwise (`x.severity == "critical"`
under Python's `False < True`). -/
def sevCrit (c : ReviewComment) : Nat := if c.severity = "critical".toList then 1 else 0

/-- Value 1 for a major severity, 0 otherwise. -/
def sevMajor (c : ReviewComment) : Nat := if c.severity = "major".toList then 1 else 0

/-- The comparison induced by `key=lambda x: (x.line_number, x.severity ==
"critical", x.severity == "major")`: ascending lexicographic order, so for
equal line numbers the comments *not* marked critical or major come first and
critical ones come last. -/
def keyLe (a b : ReviewComment) : Prop :=
  a.line_number < b.line_number ∨
    (a.line_number = b.line_number ∧
      (sevCrit a < sevCrit b ∨ (sevCrit a = sevCrit b ∧ sevMajor a ≤ sevMajor b)))

instance : DecidableRel keyLe := fun a b => by unfold keyLe; infer_instance

instance : IsTotal ReviewComment keyLe := ⟨fun a b => by unfold keyLe; omega⟩

instance : IsTrans ReviewComment keyLe := ⟨fun a b c => by unfold keyLe; omega⟩

/-- `all_comments.sort(key=...)`: Python's sort is stable, as is insertion
sort by the non-strict key order. -/
def sortComments (l : List ReviewComment) : List ReviewComment :=
  List.insertionSort keyLe l

/-- `MultiAgentReviewer.review_diff`: run the selected agents in order on one
record, collect their comments (including synthetic failure comments), and
sort the collected list. -/
def review_diff (invoke : CodeDiff → ReviewCategory → Nat → Except (List Char) (List Char))
    (jsonLoads : List Char → Option Json) (fencedSearch : List Char → Option (List Char))
    (d : CodeDiff) (quick_mode : Bool) : List ReviewComment :=
  sortComments (((get_agents_for_review quick_mode).map
    (runAgent invoke jsonLoads fencedSearch d)).flatten)

/-- `MultiAgentReviewer.review_diffs`: apply `review_diff` to each record in
input order and concatenate the results (no further global sort). -/
def review_diffs (invoke : CodeDiff → ReviewCategory → Nat → Except (List Char) (List Char))
    (jsonLoads : List Char → Option Json) (fencedSearch : List Char → Option (List Char))
    (diffs : List CodeDiff) (quick_mode : Bool) : List ReviewComment :=
  (diffs.map (fun d => review_diff invoke jsonLoads fencedSearch d quick_mode)).flatten

/-! ## Fixtures, concrete inputs and counting definitions used by the theorems -/

/-- Oracle for a `json.loads` that accepts nothing (never consulted when the
reply holds no brace-delimited span). -/
def jlNone : List Char → Option Json := fun _ => none

/-- Oracle for a fenced-code-block search that finds nothing. -/
def fsNone : List Char → Option (List Char) := fun _ => none

/-- Settings with the default provider (`openrouter`) and no credential. -/
def settingsNoKey : Settings :=
  { openai_api_key := none, anthropic_api_key := none, watsonx_api_key := none,
    watsonx_project_id := none, watsonx_url := none, openrouter_api_key := none,
    llm_provider := "openrouter".toList,
    model_name := "deepseek/deepseek-chat-v3.1:free".toList }

/-- A minimal change record used as concrete input. -/
def d0 : CodeDiff :=
  { file_path := "f".toList, old_content := none, new_content := none,
    added_lines := [], removed_lines := [], diff_text := "x".toList }

/-- JSON value of the reply used for the C1 run: three comments with
(line, severity) = (5, minor), (5, critical), (3, major). -/
def jsonC1 : Json :=
  Json.obj [("comments".toList, Json.arr
    [Json.obj [("line_number".toList, Json.num 5), ("severity".toList, Json.str ("minor".toList)),
               ("title".toList, Json.str ("a".toList)),
               ("description".toList, Json.str ("d".toList))],
     Json.obj [("line_number".toList, Json.num 5),
               ("severity".toList, Json.str ("critical".toList)),
               ("title".toList, Json.str ("b".toList)),
               ("description".toList, Json.str ("d".toList))],
     Json.obj [("line_number".toList, Json.num 3),
               ("severity".toList, Json.str ("major".toList)),
               ("title".toList, Json.str ("c".toList)),
               ("description".toList, Json.str ("d".toList))]])]

/-- Reply text of the C1 run; `json.loads` of its brace-delimited span (the
whole reply) yields `jsonC1`. -/
def replyC1 : List Char :=
  ("\x7b\"comments\": [" ++
   "\x7b\"line_number\": 5, \"severity\": \"minor\", \"title\": \"a\", \"description\": \"d\"\x7d, " ++
   "\x7b\"line_number\": 5, \"severity\": \"critical\", \"title\": \"b\", \"description\": \"d\"\x7d, " ++
   "\x7b\"line_number\": 3, \"severity\": \"major\", \"title\": \"c\", \"description\": \"d\"\x7d]\x7d").toList

/-- Oracle stating `json.loads replyC1 = jsonC1` (and refusing other inputs,
which the run never submits). -/
def jlC1 : List Char → Option Json := fun s => if s = replyC1 then some jsonC1 else none

/-- Invocations of the C1 run: the logic agent replies `replyC1`; the other
agents fail with a rate-limit error on every attempt (so they are silently
skipped and contribute no findings). -/
def invokeC1 : CodeDiff → ReviewCategory → Nat → Except (List Char) (List Char) :=
  fun _ cat _ => if cat = ReviewCategory.logic then .ok replyC1 else .error ("429".toList)

/-- Finding {line 5, minor} of the spec's worked example. -/
def ex5minor : ReviewComment :=
  { file_path := "f".toList, line_number := 5, category := ReviewCategory.logic,
    severity := "minor".toList, title := "a".toList, description := "d".toList,
    code_snippet := none, suggestion := none }

/-- Finding {line 5, critical} of the spec's worked example. -/
def ex5critical : ReviewComment :=
  { file_path := "f".toList, line_number := 5, category := ReviewCategory.logic,
    severity := "critical".toList, title := "b".toList, description := "d".toList,
    code_snippet := none, suggestion := none }

/-- Finding {line 3, major} of the spec's worked example. -/
def ex3major : ReviewComment :=
  { file_path := "f".toList, line_number := 3, category := ReviewCategory.logic,
    severity := "major".toList, title := "c".toList, description := "d".toList,
    code_snippet := none, suggestion := none }

/-- Invocations that always fail with a permanent error. -/
def invokeBoom : CodeDiff → ReviewCategory → Nat → Except (List Char) (List Char) :=
  fun _ _ _ => .error ("boom".toList)

/-- A tier-1 element with `"line_number": "abc"` (present but not coercible)
together with a valid element carrying line 2. -/
def badLnElem : Json :=
  Json.obj [("line_number".toList, Json.str ("abc".toList)),
            ("severity".toList, Json.str ("minor".toList)),
            ("title".toList, Json.str ("t1".toList)),
            ("description".toList, Json.str ("d1".toList))]

/-- A valid tier element with line 1. -/
def goodElem1 : Json :=
  Json.obj [("line_number".toList, Json.num 1),
            ("severity".toList, Json.str ("minor".toList)),
            ("title".toList, Json.str ("g1".toList)),
            ("description".toList, Json.str ("d".toList))]

/-- A valid tier element with line 2. -/
def goodElem2 : Json :=
  Json.obj [("line_number".toList, Json.num 2),
            ("severity".toList, Json.str ("major".toList)),
            ("title".toList, Json.str ("g2".toList)),
            ("description".toList, Json.str ("d".toList))]

/-- Reply whose comments array is `[badLnElem, goodElem2]`. -/
def replyC6 : List Char :=
  ("\x7b\"comments\": [" ++
   "\x7b\"line_number\": \"abc\", \"severity\": \"minor\", \"title\": \"t1\", \"description\": \"d1\"\x7d, " ++
   "\x7b\"line_number\": 2, \"severity\": \"major\", \"title\": \"g2\", \"description\": \"d\"\x7d]\x7d").toList

/-- Oracle stating `json.loads replyC6` yields the two-element comments
array. -/
def jlC6 : List Char → Option Json :=
  fun s => if s = replyC6 then
    some (Json.obj [("comments".toList, Json.arr [badLnElem, goodElem2])]) else none

/-- Element fields with no `line_number` key at all. -/
def noLnFields : List (List Char × Json) :=
  [("severity".toList, Json.str ("suggestion".toList)),
   ("title".toList, Json.str ("t".toList)),
   ("description".toList, Json.str ("d".toList))]

/-- The comment built from `noLnFields`: absent line number defaults to 0. -/
def noLnComment : ReviewComment :=
  { file_path := "f".toList, line_number := 0, category := ReviewCategory.logic,
    severity := "suggestion".toList, title := "t".toList, description := "d".toList,
    code_snippet := none, suggestion := none }

/-- Two-section diff whose second section carries no `--- a/<path>` line. -/
def twoSectionDiff : List Char :=
  ("diff --git a/one b/one\n--- a/one\n+++ b/one\n" ++
   "diff --git a/two b/two\n+++ b/two").toList

/-- Number of lines beginning with the file-header token. -/
def countGitHeaders (ls : List (List Char)) : Nat :=
  (ls.filter (startsWith hdrTok)).length

/-- Abstract record count of the parser loop over the remaining lines, as a
function of just the two state observables the flush condition reads: whether
a path is set (`p`) and whether any line has accumulated (`a`). -/
def gCount (p a : Bool) : List (List Char) → Nat
  | [] => if p && a then 1 else 0
  | l :: r =>
    if startsWith hdrTok l then (if p && a then 1 else 0) + gCount p true r
    else if (pathOf l).isSome then gCount true true r
    else gCount p true r

/-- Scans the tail from inside a section: `seen` records whether the current
section already produced a path line; every section must produce one before
its end. -/
def scanOk (seen : Bool) : List (List Char) → Bool
  | [] => seen
  | l :: r =>
    if startsWith hdrTok l then seen && scanOk false r
    else if (pathOf l).isSome then scanOk true r
    else scanOk seen r

/-- Input discipline under which the record count equals the header count:
no old-file-path line before the first header, and every header-opened
section contains one. -/
def topOk : List (List Char) → Bool
  | [] => true
  | l :: r =>
    if startsWith hdrTok l then scanOk false r
    else if (pathOf l).isSome then false
    else topOk r

/-- Abstract emission trace of the parser loop over the remaining lines: the
raw texts of the records it will flush, as a function of the path-set
observable `p` and the raw-line accumulator `cur` — one flush candidate at
each header and at the end, emitted when `p` is set and lines accumulated.
Mirrors the machine exactly, as `foldl_parse_texts` proves. -/
def gTexts (p : Bool) (cur : List (List Char)) : List (List Char) → List (List Char)
  | [] => if p && !cur.isEmpty then [joinLines cur] else []
  | l :: r =>
    if startsWith hdrTok l then
      (if p && !cur.isEmpty then [joinLines cur] else []) ++ gTexts p [l] r
    else if (pathOf l).isSome then gTexts true (cur ++ [l]) r
    else gTexts p (cur ++ [l]) r

/-- Reference (modelled from the amended claim's words): drops the input
lines preceding the first `diff --git` header. -/
def preSkip : List (List Char) → List (List Char)
  | [] => []
  | l :: r => if startsWith hdrTok l then l :: r else preSkip r

/-- Reference (modelled from the amended claim's words): accumulates the
current header-opened section and closes it at the next header, keeping the
sections in input order. -/
def sectionsAux (cur : List (List Char)) : List (List Char) → List (List (List Char))
  | [] => [cur]
  | l :: r =>
    if startsWith hdrTok l then cur :: sectionsAux [l] r
    else sectionsAux (cur ++ [l]) r

/-- Reference (modelled from the amended claim's words): the header-delimited
sections of the input, in input order — one per `diff --git` header, each
running from its header up to just before the next.  The amended C2 theorem
checks the parser's records against this order. -/
def headerSections (ls : List (List Char)) : List (List (List Char)) :=
  match preSkip ls with
  | [] => []
  | l :: r => sectionsAux [l] r

/-- A well-formed two-file diff where each section has its path line. -/
def twoFileDiff : List Char :=
  ("diff --git a/one b/one\n--- a/one\n+++ b/one\n" ++
   "diff --git a/two b/two\n--- a/two\n+++ b/two").toList

/-- The parser state right after a file-header line hit the fresh initial
state: only the header is accumulated, and no path is set yet. -/
def postHeaderState (hdr : List Char) : ParseState :=
  { diffs := [], current_diff_lines := [hdr], current_file_path := none,
    added_lines := [], removed_lines := [], old_content_lines := [],
    new_content_lines := [], in_hunk := false, old_line_num := 0,
    new_line_num := 0 }

/-- Number of addition lines of a hunk body: prefixed `+` but not the `+++`
marker. -/
def countAddLines (body : List (List Char)) : Nat :=
  (body.filter (fun l => startsWith ("+".toList) l && !startsWith plus3 l)).length

/-- Number of removal lines of a hunk body: prefixed `-` but not the `---`
marker. -/
def countRemLines (body : List (List Char)) : Nat :=
  (body.filter (fun l => startsWith ("-".toList) l && !startsWith minus3 l)).length

/-! ## Fixtures shared by concrete evaluations -/

/-! ## Claim C5 -/

/-- Claim C5, counterexample: with the configured provider's credential
missing (`settingsNoKey`), agent construction does not fail — `__init__` runs
no credential check and succeeds — so the claim that construction fails fast
is false; the configuration error is raised only on first access of the
`llm` property. -/
theorem c5_counterexample :
    falsyOpt settingsNoKey.openrouter_api_key = true ∧
    settingsNoKey.llm_provider = "openrouter".toList ∧
    reviewAgentInitE ReviewCategory.logic [] = .ok (reviewAgentInit ReviewCategory.logic []) ∧
    llmProperty settingsNoKey (reviewAgentInit ReviewCategory.logic []) =
      .error openrouterKeyError :=
  ⟨rfl, rfl, rfl, rfl⟩

/-- Claim C5 (amended): constructing an agent never fails and consults no
credential; when the configured provider is `openrouter` and its credential
is missing, the failure is raised at the first access of the `llm` property
— i.e. during the first review call — with the configuration error message. -/
theorem c5_amended (s : Settings) (cat : ReviewCategory) (prompt : List Char)
    (hp : s.llm_provider = "openrouter".toList)
    (hk : falsyOpt s.openrouter_api_key = true) :
    reviewAgentInitE cat prompt = .ok (reviewAgentInit cat prompt) ∧
    (reviewAgentInit cat prompt)._llm = none ∧
    llmProperty s (reviewAgentInit cat prompt) = .error openrouterKeyError := by
  refine ⟨rfl, rfl, ?_⟩
  simp [llmProperty, reviewAgentInit, getLlm, hp, hk]

/-- Claim C5 witness: the amended theorem applied to the concrete
credential-less settings. -/
theorem c5_amended_witness :
    reviewAgentInitE ReviewCategory.security [] =
      .ok (reviewAgentInit ReviewCategory.security []) ∧
    (reviewAgentInit ReviewCategory.security [])._llm = none ∧
    llmProperty settingsNoKey (reviewAgentInit ReviewCategory.security []) =
      .error openrouterKeyError :=
  c5_amended settingsNoKey ReviewCategory.security [] rfl rfl

/-! ## Claim C4 -/

/-- Claim C4, counterexample: for the reply `" x"` (freeform prose, no JSON
anywhere) the single synthesized Finding's description is the *stripped*
reply `"x"`, not the reply text truncated to 1000 characters (which would be
`" x"` itself), and the reply is non-empty so the claim's empty-reply clause
does not apply.  (For the empty reply the description is likewise `""`, not
a fixed placeholder.) -/
theorem c4_counterexample :
    parseResponse jlNone fsNone (" x".toList) ("f".toList) ReviewCategory.logic =
      [{ file_path := "f".toList, line_number := 0, category := ReviewCategory.logic,
         severity := "minor".toList, title := "Review Note".toList,
         description := "x".toList, code_snippet := none, suggestion := none }] ∧
    "x".toList ≠ (" x".toList).take 1000 ∧
    parseResponse jlNone fsNone [] ("f".toList) ReviewCategory.logic =
      [{ file_path := "f".toList, line_number := 0, category := ReviewCategory.logic,
         severity := "minor".toList, title := "Review Note".toList,
         description := [], code_snippet := none, suggestion := none }] := by
  refine ⟨by decide, by decide, by decide⟩

/-- Claim C4 (amended): whenever tier 1 and tier 2 yield no Finding and no
exception escapes them (`parseTiers … = some []`), `_parse_response` returns
exactly one Finding with `lineNumber = 0`, `severity = minor`,
`title = "Review Note"`, and description equal to the whitespace-stripped
reply, cut to its first 1000 characters with an ellipsis appended when it
exceeds 1000 characters; an empty reply yields an empty description (the
fixed placeholder belongs to the separate internal-exception path only).
The extractor is a total function — it never throws. -/
theorem c4_amended (jsonLoads : List Char → Option Json)
    (fencedSearch : List Char → Option (List Char))
    (text fp : List Char) (cat : ReviewCategory)
    (h : parseTiers jsonLoads fencedSearch text fp cat = some []) :
    parseResponse jsonLoads fencedSearch text fp cat =
      [{ file_path := fp, line_number := 0, category := cat,
         severity := "minor".toList, title := "Review Note".toList,
         description := fallbackDescription text,
         code_snippet := none, suggestion := none }] := by
  unfold parseResponse
  rw [h]
  rfl

/-- Claim C4 witness: the amended theorem applied to a freeform-prose reply
containing no brace at all, so both tiers yield nothing for every oracle. -/
theorem c4_amended_witness :
    parseTiers jlNone fsNone ("no json here".toList) ("f".toList) ReviewCategory.security =
      some [] ∧
    parseResponse jlNone fsNone ("no json here".toList) ("f".toList) ReviewCategory.security =
      [{ file_path := "f".toList, line_number := 0, category := ReviewCategory.security,
         severity := "minor".toList, title := "Review Note".toList,
         description := fallbackDescription ("no json here".toList),
         code_snippet := none, suggestion := none }] :=
  ⟨rfl, c4_amended jlNone fsNone ("no json here".toList) ("f".toList) ReviewCategory.security rfl⟩

/-! ## Claim C1 -/

set_option maxRecDepth 40000 in
/-- Claim C1, counterexample: a batch review of one record in quick mode
whose findings are exactly {5, minor}, {5, critical}, {3, major} returns them
ordered [{3, major}, {5, minor}, {5, critical}] — for equal line numbers the
sort key `(line, sev == "critical", sev == "major")` places critical-severity
findings *last* (ascending Boolean order), not first as claimed. -/
theorem c1_counterexample :
    (review_diffs invokeC1 jlC1 fsNone [d0] true).map
        (fun c => (c.line_number, c.severity)) =
      [(3, "major".toList), (5, "minor".toList), (5, "critical".toList)] ∧
    (review_diffs invokeC1 jlC1 fsNone [d0] true).map
        (fun c => (c.line_number, c.severity)) ≠
      [(3, "major".toList), (5, "critical".toList), (5, "minor".toList)] := by
  refine ⟨by decide, by decide⟩

/-- Claim C1 (amended): each record's findings are sorted by the key
(lineNumber ascending; for equal line numbers, severities other than
critical/major first, then major, then critical — Python's ascending order
on the Booleans `sev == "critical"`, `sev == "major"`), as a stable
permutation of the comments collected from the agents; `review_diffs`
concatenates the per-record sorted lists in record order without a global
sort.  For the example findings {5, minor}, {5, critical}, {3, major} the
sorted output is [{3, major}, {5, minor}, {5, critical}]. -/
theorem c1_amended (invoke : CodeDiff → ReviewCategory → Nat → Except (List Char) (List Char))
    (jsonLoads : List Char → Option Json) (fencedSearch : List Char → Option (List Char))
    (ds : List CodeDiff) (d : CodeDiff) (q : Bool) :
    (review_diff invoke jsonLoads fencedSearch d q).Sorted keyLe ∧
    (review_diff invoke jsonLoads fencedSearch d q).Perm
      (((get_agents_for_review q).map (runAgent invoke jsonLoads fencedSearch d)).flatten) ∧
    review_diffs invoke jsonLoads fencedSearch ds q =
      (ds.map (fun x => review_diff invoke jsonLoads fencedSearch x q)).flatten ∧
    sortComments [ex5minor, ex5critical, ex3major] = [ex3major, ex5minor, ex5critical] :=
  ⟨List.sorted_insertionSort keyLe _, List.perm_insertionSort keyLe _, rfl, by decide⟩

/-! ## Claim C3 -/

/-- When every attempt for an agent fails with a permanent (non-rate-limit)
error, the retry loop takes the non-retry branch at the first attempt and
yields exactly the one synthetic error comment. -/
theorem runAgent_permanent_failure
    (invoke : CodeDiff → ReviewCategory → Nat → Except (List Char) (List Char))
    (jsonLoads : List Char → Option Json) (fencedSearch : List Char → Option (List Char))
    (d : CodeDiff) (cat : ReviewCategory)
    (h : ∀ n, ∃ e, invoke d cat n = .error e ∧ isRateLimit (wrapLlmError cat e) = false) :
    ∃ e, runAgent invoke jsonLoads fencedSearch d cat = [errorComment d cat e] := by
  obtain ⟨e0, he0, hr0⟩ := h 0
  refine ⟨wrapLlmError cat e0, ?_⟩
  unfold runAgent agentCall
  rw [he0]
  simp [hr0]

/-- Claim C3: for any combination of outcomes, batch review is a total
function (the embedding returns a plain list, never an exception); when every
invocation fails with a permanent (non-rate-limit) error, the output holds
exactly one synthetic Finding per selected agent per record — total = number
of agents × number of records — each with severity `minor`, line number 0 and
the title `<Category> Review Error` identifying the failed agent. -/
theorem c3_permanent_failures
    (invoke : CodeDiff → ReviewCategory → Nat → Except (List Char) (List Char))
    (jsonLoads : List Char → Option Json) (fencedSearch : List Char → Option (List Char))
    (ds : List CodeDiff) (q : Bool)
    (h : ∀ d cat n, ∃ e, invoke d cat n = .error e ∧ isRateLimit (wrapLlmError cat e) = false) :
    (review_diffs invoke jsonLoads fencedSearch ds q).length =
      (get_agents_for_review q).length * ds.length ∧
    ∀ c ∈ review_diffs invoke jsonLoads fencedSearch ds q,
      c.severity = "minor".toList ∧ c.line_number = 0 ∧
      c.title = c.category.titled ++ " Review Error".toList := by
  have hrun : ∀ d cat, ∃ e,
      runAgent invoke jsonLoads fencedSearch d cat = [errorComment d cat e] :=
    fun d cat => runAgent_permanent_failure invoke jsonLoads fencedSearch d cat (h d cat)
  have hlen1 : ∀ d, (review_diff invoke jsonLoads fencedSearch d q).length =
      (get_agents_for_review q).length := by
    intro d
    unfold review_diff sortComments
    rw [List.length_insertionSort, List.length_flatten, List.map_map]
    have hone : ((get_agents_for_review q).map
        (List.length ∘ runAgent invoke jsonLoads fencedSearch d)) =
        (get_agents_for_review q).map (fun _ => 1) := by
      refine List.map_congr_left ?_
      intro cat _
      obtain ⟨e, he⟩ := hrun d cat
      simp [Function.comp, he]
    rw [hone]
    simp
  have hmemd : ∀ d, ∀ c ∈ review_diff invoke jsonLoads fencedSearch d q,
      ∃ cat e, c = errorComment d cat e := by
    intro d c hc
    unfold review_diff sortComments at hc
    rw [List.mem_insertionSort, List.mem_flatten] at hc
    obtain ⟨sub, hsub, hcsub⟩ := hc
    rw [List.mem_map] at hsub
    obtain ⟨cat, _, rfl⟩ := hsub
    obtain ⟨e, he⟩ := hrun d cat
    rw [he, List.mem_singleton] at hcsub
    exact ⟨cat, e, hcsub⟩
  constructor
  · unfold review_diffs
    rw [List.length_flatten, List.map_map]
    have hconst : (ds.map (List.length ∘ fun d =>
        review_diff invoke jsonLoads fencedSearch d q)) =
        ds.map (fun _ => (get_agents_for_review q).length) := by
      refine List.map_congr_left ?_
      intro d _
      simpa [Function.comp] using hlen1 d
    rw [hconst]
    simp [Nat.mul_comm]
  · intro c hc
    unfold review_diffs at hc
    rw [List.mem_flatten] at hc
    obtain ⟨sub, hsub, hcsub⟩ := hc
    rw [List.mem_map] at hsub
    obtain ⟨d, _, rfl⟩ := hsub
    obtain ⟨cat, e, rfl⟩ := hmemd d c hcsub
    exact ⟨rfl, rfl, rfl⟩

/-- Claim C3 witness: the all-permanent-failure run on one record in full
mode yields 4 × 1 findings, all synthetic error comments. -/
theorem c3_permanent_failures_witness :
    (review_diffs invokeBoom jlNone fsNone [d0] false).length =
      (get_agents_for_review false).length * [d0].length ∧
    ∀ c ∈ review_diffs invokeBoom jlNone fsNone [d0] false,
      c.severity = "minor".toList ∧ c.line_number = 0 ∧
      c.title = c.category.titled ++ " Review Error".toList :=
  c3_permanent_failures invokeBoom jlNone fsNone [d0] false
    (fun _ cat _ => ⟨"boom".toList, rfl, by cases cat <;> decide⟩)

/-! ## Claim C10 -/

/-- Pydantic validation only ever returns comments whose severity is one of
the four `Literal` values, and the line number passed in is the one stored. -/
theorem mkReviewComment_fields {fp : List Char} {ln : Int} {cat : ReviewCategory}
    {sev title descr snip sugg : Json} {c : ReviewComment}
    (h : mkReviewComment fp ln cat sev title descr snip sugg = some c) :
    c.severity ∈ validSeverities ∧ c.line_number = ln := by
  unfold mkReviewComment at h
  split at h
  · rename_i s t d
    split_ifs at h with hs
    split at h
    · rw [Option.some_inj] at h
      rw [← h]
      exact ⟨hs, rfl⟩
    · exact absurd h (by simp)
  · exact absurd h (by simp)

/-- Comments built from a tier-1/tier-2 element carry a valid severity. -/
theorem buildComment_severity {fp : List Char} {cat : ReviewCategory} {j : Json}
    {c : ReviewComment} (h : buildComment fp cat j = some c) :
    c.severity ∈ validSeverities := by
  unfold buildComment at h
  split at h
  · split at h
    · exact absurd h (by simp)
    · exact (mkReviewComment_fields h).1
  · exact absurd h (by simp)

/-- All comments of a tier-2 loop run carry a valid severity. -/
theorem buildStop_severity {fp : List Char} {cat : ReviewCategory} :
    ∀ {l : List Json} {c : ReviewComment}, c ∈ buildStop fp cat l →
      c.severity ∈ validSeverities := by
  intro l
  induction l with
  | nil => intro c hc; exact absurd hc (by simp [buildStop])
  | cons j r ih =>
    intro c hc
    unfold buildStop at hc
    revert hc
    split
    · rename_i c0 h0
      intro hc
      rcases List.mem_cons.mp hc with h | h
      · rw [h]; exact buildComment_severity h0
      · exact ih h
    · intro hc; exact absurd hc (by simp)

/-- All comments of a successful tier-1 extraction carry a valid severity. -/
theorem tier1Comments_severity {fp : List Char} {cat : ReviewCategory} {data : Json}
    {cs : List ReviewComment} (h : tier1Comments fp cat data = some cs) :
    ∀ c ∈ cs, c.severity ∈ validSeverities := by
  unfold tier1Comments at h
  intro c hc
  split at h
  · split at h
    · rw [Option.some_inj] at h; rw [← h] at hc; exact absurd hc (by simp)
    · rw [Option.some_inj] at h
      rw [← h] at hc
      obtain ⟨j, _, hj⟩ := List.mem_filterMap.mp hc
      exact buildComment_severity hj
    · rw [Option.some_inj] at h; rw [← h] at hc; exact absurd hc (by simp)
    · rw [Option.some_inj] at h; rw [← h] at hc; exact absurd hc (by simp)
    · exact absurd h (by simp)
  · exact absurd h (by simp)

/-- All comments of a tier-2 extraction carry a valid severity. -/
theorem tier2Comments_severity {fp : List Char} {cat : ReviewCategory} {data : Json}
    {c : ReviewComment} (hc : c ∈ tier2Comments fp cat data) :
    c.severity ∈ validSeverities := by
  unfold tier2Comments at hc
  revert hc
  split
  · split
    · intro hc; exact absurd hc (by simp)
    · intro hc; exact buildStop_severity hc
    · intro hc; exact absurd hc (by simp)
  · intro hc; exact absurd hc (by simp)

/-- All comments of the tiered extraction body carry a valid severity. -/
theorem parseTiers_severity {jsonLoads : List Char → Option Json}
    {fencedSearch : List Char → Option (List Char)} {text fp : List Char}
    {cat : ReviewCategory} {cs : List ReviewComment}
    (h : parseTiers jsonLoads fencedSearch text fp cat = some cs) :
    ∀ c ∈ cs, c.severity ∈ validSeverities := by
  unfold parseTiers at h
  intro c hc
  split at h
  · rw [Option.some_inj] at h; rw [← h] at hc; exact absurd hc (by simp)
  · split at h
    · exact tier1Comments_severity h c hc
    · rw [Option.some_inj] at h
      rw [← h] at hc
      revert hc
      split
      · intro hc; exact absurd hc (by simp)
      · split
        · intro hc; exact absurd hc (by simp)
        · intro hc; exact tier2Comments_severity hc

/-- Every comment returned by `_parse_response` carries a valid severity:
structured elements pass pydantic validation, and the two fallback comments
are `minor`. -/
theorem parseResponse_severity {jsonLoads : List Char → Option Json}
    {fencedSearch : List Char → Option (List Char)} {text fp : List Char}
    {cat : ReviewCategory} {c : ReviewComment}
    (hc : c ∈ parseResponse jsonLoads fencedSearch text fp cat) :
    c.severity ∈ validSeverities := by
  unfold parseResponse at hc
  revert hc
  split
  · rename_i cs h
    split
    · intro hc
      rw [List.mem_singleton] at hc
      rw [hc]
      simp [fallbackComment, validSeverities]
    · intro hc
      exact parseTiers_severity h c hc
  · intro hc
    rw [List.mem_singleton] at hc
    rw [hc]
    simp [exceptComment, validSeverities]

/-- Every comment an agent run contributes carries a valid severity —
extracted ones by validation, synthetic failure ones as `minor`. -/
theorem runAgent_severity
    {invoke : CodeDiff → ReviewCategory → Nat → Except (List Char) (List Char)}
    {jsonLoads : List Char → Option Json} {fencedSearch : List Char → Option (List Char)}
    {d : CodeDiff} {cat : ReviewCategory} {c : ReviewComment}
    (hc : c ∈ runAgent invoke jsonLoads fencedSearch d cat) :
    c.severity ∈ validSeverities := by
  have hcall : ∀ n (cs : List ReviewComment),
      agentCall invoke jsonLoads fencedSearch d cat n = .ok cs →
      ∀ x ∈ cs, x.severity ∈ validSeverities := by
    intro n cs h x hx
    unfold agentCall at h
    split at h
    · rw [Except.ok.injEq] at h
      rw [← h] at hx
      exact parseResponse_severity hx
    · exact absurd h (by simp)
  unfold runAgent at hc
  revert hc
  split
  · rename_i cs h0
    intro hc
    exact hcall 0 cs h0 c hc
  · split_ifs
    · split
      · rename_i cs h1
        intro hc
        exact hcall 1 cs h1 c hc
      · split_ifs
        · intro hc; exact absurd hc (by simp)
        · intro hc
          rw [List.mem_singleton] at hc
          rw [hc]
          simp [errorComment, validSeverities]
    · intro hc
      rw [List.mem_singleton] at hc
      rw [hc]
      simp [errorComment, validSeverities]

/-- Claim C10: every Finding in the batch output has a severity from the
closed set {critical, major, minor, suggestion}; a comments element carrying
any other severity string fails pydantic construction (here: severity
`blocker`, so it is skipped by the per-element handler rather than emitted),
and the orchestrator's synthetic failure Findings use `minor` — an arbitrary
severity string in a reply can never propagate into the result list. -/
theorem c10_severity_invariant
    (invoke : CodeDiff → ReviewCategory → Nat → Except (List Char) (List Char))
    (jsonLoads : List Char → Option Json) (fencedSearch : List Char → Option (List Char))
    (ds : List CodeDiff) (q : Bool) (c : ReviewComment)
    (hc : c ∈ review_diffs invoke jsonLoads fencedSearch ds q)
    (fp : List Char) (cat : ReviewCategory) (d : CodeDiff) (e : List Char) :
    c.severity ∈ validSeverities ∧
    buildComment fp cat (Json.obj [("severity".toList, Json.str ("blocker".toList))]) = none ∧
    (errorComment d cat e).severity = "minor".toList := by
  refine ⟨?_, rfl, rfl⟩
  unfold review_diffs at hc
  rw [List.mem_flatten] at hc
  obtain ⟨sub, hsub, hcsub⟩ := hc
  rw [List.mem_map] at hsub
  obtain ⟨x, _, rfl⟩ := hsub
  unfold review_diff sortComments at hcsub
  rw [List.mem_insertionSort, List.mem_flatten] at hcsub
  obtain ⟨sub2, hsub2, hcsub2⟩ := hcsub
  rw [List.mem_map] at hsub2
  obtain ⟨cat2, _, rfl⟩ := hsub2
  exact runAgent_severity hcsub2

/-- Claim C10 witness: a concrete element of a concrete batch output, with
the skip-on-invalid-severity and synthetic-minor facts evaluated. -/
theorem c10_severity_invariant_witness :
    errorComment d0 ReviewCategory.logic (wrapLlmError ReviewCategory.logic ("boom".toList)) ∈
      review_diffs invokeBoom jlNone fsNone [d0] true ∧
    ((errorComment d0 ReviewCategory.logic
        (wrapLlmError ReviewCategory.logic ("boom".toList))).severity ∈ validSeverities ∧
      buildComment ("f".toList) ReviewCategory.security
        (Json.obj [("severity".toList, Json.str ("blocker".toList))]) = none ∧
      (errorComment d0 ReviewCategory.testing ("x".toList)).severity = "minor".toList) :=
  ⟨by decide,
   c10_severity_invariant invokeBoom jlNone fsNone [d0] true _ (by decide)
     ("f".toList) ReviewCategory.security d0 ("x".toList)⟩

/-! ## Claim C6 -/

/-- Tier-2 loop step on a successfully constructed element. -/
theorem buildStop_cons_some {fp : List Char} {cat : ReviewCategory} {x : Json}
    {t : List Json} {c0 : ReviewComment} (h : buildComment fp cat x = some c0) :
    buildStop fp cat (x :: t) = c0 :: buildStop fp cat t := by
  conv_lhs => unfold buildStop
  rw [h]

/-- Tier-2 loop step on a failing element: the loop aborts, discarding the
rest of the array. -/
theorem buildStop_cons_none {fp : List Char} {cat : ReviewCategory} {x : Json}
    {t : List Json} (h : buildComment fp cat x = none) :
    buildStop fp cat (x :: t) = [] := by
  conv_lhs => unfold buildStop
  rw [h]

/-- Tier 2 keeps exactly the comments built before the first failing element
and discards every element after it. -/
theorem buildStop_stops_at_failure (fp : List Char) (cat : ReviewCategory)
    (pre post : List Json) (bad : Json)
    (hbad : buildComment fp cat bad = none)
    (hpre : ∀ x ∈ pre, (buildComment fp cat x).isSome = true) :
    buildStop fp cat (pre ++ bad :: post) = pre.filterMap (buildComment fp cat) := by
  induction pre with
  | nil =>
    rw [List.nil_append, buildStop_cons_none hbad, List.filterMap_nil]
  | cons x xs ih =>
    have hx := hpre x (List.mem_cons_self x xs)
    obtain ⟨c0, h0⟩ := Option.isSome_iff_exists.mp hx
    rw [List.cons_append, buildStop_cons_some h0,
      ih (fun y hy => hpre y (List.mem_cons_of_mem x hy))]
    simp [List.filterMap_cons, h0]

set_option maxRecDepth 40000 in
/-- Claim C6, counterexample: the element whose present `line_number` fails
integer coercion is *dropped* by tier 1 (the extraction yields only the valid
element, no Finding with lineNumber 0 is emitted for it), and in tier 2 one
invalid element *does* discard the remaining valid elements of the array
(only the prefix before it survives). -/
theorem c6_counterexample :
    parseResponse jlC6 fsNone replyC6 ("f".toList) ReviewCategory.logic =
      [{ file_path := "f".toList, line_number := 2, category := ReviewCategory.logic,
         severity := "major".toList, title := "g2".toList, description := "d".toList,
         code_snippet := none, suggestion := none }] ∧
    buildComment ("f".toList) ReviewCategory.logic badLnElem = none ∧
    buildStop ("f".toList) ReviewCategory.logic [goodElem1, badLnElem, goodElem2] =
      [{ file_path := "f".toList, line_number := 1, category := ReviewCategory.logic,
         severity := "minor".toList, title := "g1".toList, description := "d".toList,
         code_snippet := none, suggestion := none }] :=
  ⟨by decide, by decide, by decide⟩

/-- Claim C6 (amended): `line_number` defaults to 0 only when the key is
absent (such an element still constructs, with lineNumber 0); an element
whose *present* `line_number` fails coercion fails construction and is
skipped.  Tier 1 skips a failing element per-element, so the remaining
elements of the array are still extracted; tier 2 lacks the per-element
guard: the first failing element aborts its loop, keeping the findings
already built and discarding every later element. -/
theorem c6_amended (fp : List Char) (cat : ReviewCategory)
    (fields : List (List Char × Json)) (c : ReviewComment)
    (pre post : List Json) (bad : Json)
    (h1 : jLookup ("line_number".toList) fields = none)
    (h2 : buildComment fp cat (Json.obj fields) = some c)
    (hbad : buildComment fp cat bad = none)
    (hpre : ∀ x ∈ pre, (buildComment fp cat x).isSome = true) :
    c.line_number = 0 ∧
    tier1Comments fp cat (Json.obj [("comments".toList, Json.arr (pre ++ bad :: post))]) =
      some (pre.filterMap (buildComment fp cat) ++ post.filterMap (buildComment fp cat)) ∧
    buildStop fp cat (pre ++ bad :: post) = pre.filterMap (buildComment fp cat) := by
  refine ⟨?_, ?_, buildStop_stops_at_failure fp cat pre post bad hbad hpre⟩
  · have hbc : buildComment fp cat (Json.obj fields) =
        mkReviewComment fp 0 cat
          ((jLookup ("severity".toList) fields).getD (Json.str ("minor".toList)))
          ((jLookup ("title".toList) fields).getD (Json.str ("Review Comment".toList)))
          ((jLookup ("description".toList) fields).getD (Json.str []))
          ((jLookup ("code_snippet".toList) fields).getD Json.null)
          ((jLookup ("suggestion".toList) fields).getD Json.null) := by
      unfold buildComment
      dsimp only
      rw [h1]
      rfl
    rw [hbc] at h2
    exact (mkReviewComment_fields h2).2
  · have harr : tier1Comments fp cat
        (Json.obj [("comments".toList, Json.arr (pre ++ bad :: post))]) =
        some ((pre ++ bad :: post).filterMap (buildComment fp cat)) := rfl
    rw [harr, List.filterMap_append]
    simp [List.filterMap_cons, hbad]

/-- Claim C6 witness: the amended theorem applied to a concrete absent-key
element and a concrete [good, bad, good] array. -/
theorem c6_amended_witness :
    noLnComment.line_number = 0 ∧
    tier1Comments ("f".toList) ReviewCategory.logic
        (Json.obj [("comments".toList, Json.arr ([goodElem1] ++ badLnElem :: [goodElem2]))]) =
      some ([goodElem1].filterMap (buildComment ("f".toList) ReviewCategory.logic) ++
        [goodElem2].filterMap (buildComment ("f".toList) ReviewCategory.logic)) ∧
    buildStop ("f".toList) ReviewCategory.logic ([goodElem1] ++ badLnElem :: [goodElem2]) =
      [goodElem1].filterMap (buildComment ("f".toList) ReviewCategory.logic) :=
  c6_amended ("f".toList) ReviewCategory.logic noLnFields noLnComment
    [goodElem1] [goodElem2] badLnElem rfl (by decide) (by decide) (by decide)

/-! ## Claim C8 -/

set_option maxRecDepth 40000 in
/-- Claim C8, counterexample: `current_file_path` is *not* reset at a file
header.  In a two-section input whose second section has no old-file-path
line, the second record inherits the path `one` extracted in the first
section, while its raw text is the second section's — data belonging to one
file's section (its extracted path) appears in the Change Record of another
section. -/
theorem c8_counterexample :
    (parse_diff twoSectionDiff).map CodeDiff.file_path = ["one".toList, "one".toList] ∧
    (parse_diff twoSectionDiff).map CodeDiff.diff_text =
      [("diff --git a/one b/one\n--- a/one\n+++ b/one").toList,
       ("diff --git a/two b/two\n+++ b/two").toList] :=
  ⟨by decide, by decide⟩

/-- Claim C8 (amended): a file-header line first flushes the finished record
— built from the accumulated values, when a path is set and accumulated
lines exist — and then resets every accumulator *except*
`current_file_path`, which the source never resets: raw lines, added/removed
line lists, content lists, hunk flag and both counters restart, so no line
data of one section pollutes another, but the extracted path persists and is
inherited by a later section lacking its own old-file-path line. -/
theorem c8_amended (s : ParseState) (l : List Char) (h : startsWith hdrTok l = true) :
    processLine s l =
      { diffs := flushDiffs s, current_diff_lines := [l],
        current_file_path := s.current_file_path,
        added_lines := [], removed_lines := [], old_content_lines := [],
        new_content_lines := [], in_hunk := false, old_line_num := 0,
        new_line_num := 0 } ∧
    (∀ p, s.current_file_path = some p → s.current_diff_lines ≠ [] →
      flushDiffs s = s.diffs ++
        [{ file_path := p,
           old_content := if s.old_content_lines ≠ [] then
               some (joinLines s.old_content_lines) else none,
           new_content := if s.new_content_lines ≠ [] then
               some (joinLines s.new_content_lines) else none,
           added_lines := s.added_lines, removed_lines := s.removed_lines,
           diff_text := joinLines s.current_diff_lines }]) := by
  constructor
  · unfold processLine
    rw [if_pos h]
  · intro p hp hl
    unfold flushDiffs
    rw [hp]
    simp [hl]

/-- Claim C8 witness: the amended theorem applied to a mid-parse state with
a set path, non-empty accumulators, and a concrete header line. -/
theorem c8_amended_witness :
    processLine
      { diffs := [], current_diff_lines := ["x".toList],
        current_file_path := some ("one".toList),
        added_lines := [3], removed_lines := [4],
        old_content_lines := ["o".toList], new_content_lines := ["n".toList],
        in_hunk := true, old_line_num := 5, new_line_num := 6 }
      ("diff --git a/two b/two".toList) =
      { diffs := flushDiffs
          { diffs := [], current_diff_lines := ["x".toList],
            current_file_path := some ("one".toList),
            added_lines := [3], removed_lines := [4],
            old_content_lines := ["o".toList], new_content_lines := ["n".toList],
            in_hunk := true, old_line_num := 5, new_line_num := 6 },
        current_diff_lines := ["diff --git a/two b/two".toList],
        current_file_path := some ("one".toList),
        added_lines := [], removed_lines := [], old_content_lines := [],
        new_content_lines := [], in_hunk := false, old_line_num := 0,
        new_line_num := 0 } ∧
    (∀ p, some ("one".toList) = some p → (["x".toList] : List (List Char)) ≠ [] →
      flushDiffs
          { diffs := [], current_diff_lines := ["x".toList],
            current_file_path := some ("one".toList),
            added_lines := [3], removed_lines := [4],
            old_content_lines := ["o".toList], new_content_lines := ["n".toList],
            in_hunk := true, old_line_num := 5, new_line_num := 6 } =
        [] ++
          [{ file_path := p,
             old_content := if (["o".toList] : List (List Char)) ≠ [] then
                 some (joinLines ["o".toList]) else none,
             new_content := if (["n".toList] : List (List Char)) ≠ [] then
                 some (joinLines ["n".toList]) else none,
             added_lines := [3], removed_lines := [4],
             diff_text := joinLines ["x".toList] }]) :=
  c8_amended
    { diffs := [], current_diff_lines := ["x".toList],
      current_file_path := some ("one".toList),
      added_lines := [3], removed_lines := [4],
      old_content_lines := ["o".toList], new_content_lines := ["n".toList],
      in_hunk := true, old_line_num := 5, new_line_num := 6 }
    ("diff --git a/two b/two".toList) (by decide)

/-! ## Claim C2 -/

/-- A prefix of a prefix: `startsWith (p ++ q) s` entails `startsWith p s`. -/
theorem startsWith_of_append (p q s : List Char)
    (h : startsWith (p ++ q) s = true) : startsWith p s = true := by
  induction p generalizing s with
  | nil => rfl
  | cons c cs ih =>
    cases s with
    | nil => exact absurd h (by simp [startsWith])
    | cons d ds =>
      rw [List.cons_append] at h
      unfold startsWith at h ⊢
      simp only [Bool.and_eq_true] at h ⊢
      exact ⟨h.1, ih ds h.2⟩

/-- A line not starting with `---` matches no old-file-path pattern. -/
theorem pathOf_none_of_not_minus3 (l : List Char)
    (h : ¬ startsWith minus3 l = true) : pathOf l = none := by
  unfold pathOf
  rw [if_neg]
  intro hc
  exact h (startsWith_of_append minus3 (" a/".toList) l hc.1)

/-- The header branch of the loop: flush, then reset everything except the
path. -/
theorem processLine_header (s : ParseState) (l : List Char)
    (h : startsWith hdrTok l = true) :
    processLine s l =
      { diffs := flushDiffs s, current_diff_lines := [l],
        current_file_path := s.current_file_path,
        added_lines := [], removed_lines := [], old_content_lines := [],
        new_content_lines := [], in_hunk := false, old_line_num := 0,
        new_line_num := 0 } := by
  unfold processLine
  rw [if_pos h]

/-- Every non-header branch of the loop keeps the emitted records, appends
the line to the raw accumulator, and can only set (never clear) the path —
setting it exactly on old-file-path pattern matches. -/
theorem processLine_nonheader (s : ParseState) (l : List Char)
    (h : ¬ startsWith hdrTok l = true) :
    (processLine s l).diffs = s.diffs ∧
    (processLine s l).current_diff_lines = s.current_diff_lines ++ [l] ∧
    (processLine s l).current_file_path.isSome =
      ((pathOf l).isSome || s.current_file_path.isSome) := by
  unfold processLine
  rw [if_neg h]
  split_ifs with h2 h3 h4 h5 h6 h7 h8
  · refine ⟨rfl, rfl, ?_⟩
    rcases hpo : pathOf l with _ | p <;> simp [hpo]
  all_goals
    exact ⟨rfl, rfl, by rw [pathOf_none_of_not_minus3 l h2]; simp⟩

/-- Unfolding equation for `gCount` on a cons cell. -/
theorem gCount_cons (p a : Bool) (l : List Char) (r : List (List Char)) :
    gCount p a (l :: r) =
      if startsWith hdrTok l then (if p && a then 1 else 0) + gCount p true r
      else if (pathOf l).isSome then gCount true true r
      else gCount p true r := rfl

/-- Unfolding equation for `scanOk` on a cons cell. -/
theorem scanOk_cons (seen : Bool) (l : List Char) (r : List (List Char)) :
    scanOk seen (l :: r) =
      if startsWith hdrTok l then seen && scanOk false r
      else if (pathOf l).isSome then scanOk true r
      else scanOk seen r := rfl

/-- Unfolding equation for `topOk` on a cons cell. -/
theorem topOk_cons (l : List Char) (r : List (List Char)) :
    topOk (l :: r) =
      if startsWith hdrTok l then scanOk false r
      else if (pathOf l).isSome then false
      else topOk r := rfl

/-- One header adds one to the header count. -/
theorem countGitHeaders_cons (l : List Char) (r : List (List Char)) :
    countGitHeaders (l :: r) =
      (if startsWith hdrTok l then 1 else 0) + countGitHeaders r := by
  unfold countGitHeaders
  by_cases hH : startsWith hdrTok l = true
  · rw [List.filter_cons_of_pos hH, if_pos hH, List.length_cons]
    omega
  · rw [List.filter_cons_of_neg hH, if_neg hH]
    omega

/-- The flush emits exactly one extra record when a path is set and raw lines
have accumulated, and none otherwise. -/
theorem flushDiffs_length (s : ParseState) :
    (flushDiffs s).length =
      s.diffs.length +
        (if s.current_file_path.isSome && !s.current_diff_lines.isEmpty then 1
         else 0) := by
  obtain ⟨d, cl, cfp, al, rl, ol, nl, ihk, onum, nnum⟩ := s
  rcases cfp with _ | p <;> rcases cl with _ | ⟨x, xs⟩ <;>
    simp [flushDiffs]

/-- The length of the parse result is governed by the two observables of the
flush condition: path-set and lines-accumulated. -/
theorem foldl_parse_count (lines : List (List Char)) :
    ∀ s : ParseState,
      (flushDiffs (lines.foldl processLine s)).length =
        s.diffs.length +
          gCount s.current_file_path.isSome (!s.current_diff_lines.isEmpty) lines := by
  induction lines with
  | nil =>
    intro s
    rw [List.foldl_nil, flushDiffs_length]
    rfl
  | cons l r ih =>
    intro s
    rw [List.foldl_cons, gCount_cons]
    by_cases hH : startsWith hdrTok l = true
    · rw [processLine_header s l hH, ih, if_pos hH, flushDiffs_length]
      dsimp only
      rw [show (! ([l] : List (List Char)).isEmpty) = true from rfl]
      omega
    · obtain ⟨hd, hl, hp⟩ := processLine_nonheader s l hH
      rw [ih, hd, hl, hp, if_neg hH]
      have h1 : (!(s.current_diff_lines ++ [l]).isEmpty) = true := by simp
      rw [h1]
      cases hpo : (pathOf l).isSome with
      | true => simp
      | false => simp

/-- Inside a section: if every remaining section closes with a path line
(and the current one either already set the path or still will), each flush
from here on emits a record, so the tail contributes headers + 1 records. -/
theorem scanOk_gCount (lines : List (List Char)) :
    ∀ (seen p : Bool), scanOk seen lines = true → (seen = true → p = true) →
      gCount p true lines = countGitHeaders lines + 1 := by
  induction lines with
  | nil =>
    intro seen p hs hp
    have hpt := hp hs
    rw [hpt]
    rfl
  | cons l r ih =>
    intro seen p hs hp
    rw [scanOk_cons] at hs
    rw [gCount_cons, countGitHeaders_cons]
    by_cases hH : startsWith hdrTok l = true
    · rw [if_pos hH] at hs ⊢
      simp only [Bool.and_eq_true] at hs
      obtain ⟨hseen, hrest⟩ := hs
      have hpt := hp hseen
      rw [hpt]
      rw [ih false true hrest (fun hc => absurd hc (by simp))]
      simp [hH]
      omega
    · rw [if_neg hH] at hs ⊢
      by_cases hP : (pathOf l).isSome = true
      · rw [if_pos hP] at hs ⊢
        rw [ih true true hs (fun _ => rfl)]
        simp [hH]
      · rw [if_neg hP] at hs ⊢
        rw [ih seen p hs hp]
        simp [hH]

/-- Under the `topOk` input discipline the parse emits exactly one record per
header, starting from a state with no path and nothing accumulated. -/
theorem topOk_gCount (lines : List (List Char)) :
    ∀ a : Bool, topOk lines = true →
      gCount false a lines = countGitHeaders lines := by
  induction lines with
  | nil =>
    intro a _
    rfl
  | cons l r ih =>
    intro a ht
    rw [topOk_cons] at ht
    rw [gCount_cons, countGitHeaders_cons]
    by_cases hH : startsWith hdrTok l = true
    · rw [if_pos hH] at ht ⊢
      rw [scanOk_gCount r false false ht (fun hc => absurd hc (by simp))]
      simp [hH]
      omega
    · rw [if_neg hH] at ht ⊢
      by_cases hP : (pathOf l).isSome = true
      · rw [if_pos hP] at ht
        exact absurd ht (by simp)
      · rw [if_neg hP] at ht ⊢
        rw [ih true ht]
        simp [hH]

/-- Unfolding equation for `gTexts` on the empty line list. -/
theorem gTexts_nil (p : Bool) (cur : List (List Char)) :
    gTexts p cur [] = if p && !cur.isEmpty then [joinLines cur] else [] := rfl

/-- Unfolding equation for `gTexts` on a cons cell. -/
theorem gTexts_cons (p : Bool) (cur : List (List Char)) (l : List Char)
    (r : List (List Char)) :
    gTexts p cur (l :: r) =
      if startsWith hdrTok l then
        (if p && !cur.isEmpty then [joinLines cur] else []) ++ gTexts p [l] r
      else if (pathOf l).isSome then gTexts true (cur ++ [l]) r
      else gTexts p (cur ++ [l]) r := rfl

/-- Unfolding equation for `preSkip` on a cons cell. -/
theorem preSkip_cons (l : List Char) (r : List (List Char)) :
    preSkip (l :: r) = if startsWith hdrTok l then l :: r else preSkip r := rfl

/-- Unfolding equation for `sectionsAux` on a cons cell. -/
theorem sectionsAux_cons (cur : List (List Char)) (l : List Char)
    (r : List (List Char)) :
    sectionsAux cur (l :: r) =
      if startsWith hdrTok l then cur :: sectionsAux [l] r
      else sectionsAux (cur ++ [l]) r := rfl

/-- One step of the reference section splitter. -/
theorem headerSections_cons (l : List Char) (r : List (List Char)) :
    headerSections (l :: r) =
      if startsWith hdrTok l then sectionsAux [l] r else headerSections r := by
  unfold headerSections
  rw [preSkip_cons]
  by_cases hH : startsWith hdrTok l = true
  · rw [if_pos hH, if_pos hH]
  · rw [if_neg hH, if_neg hH]

/-- The flush appends exactly the raw text of the accumulated section when a
path is set and lines have accumulated, and nothing otherwise. -/
theorem flushDiffs_texts (s : ParseState) :
    (flushDiffs s).map CodeDiff.diff_text =
      s.diffs.map CodeDiff.diff_text ++
        (if s.current_file_path.isSome && !s.current_diff_lines.isEmpty then
          [joinLines s.current_diff_lines] else []) := by
  obtain ⟨d, cl, cfp, al, rl, ol, nl, ihk, onum, nnum⟩ := s
  rcases cfp with _ | p <;> rcases cl with _ | ⟨x, xs⟩ <;> simp [flushDiffs]

/-- The raw texts of the parse result are governed by the emission trace
`gTexts` of the two flush observables. -/
theorem foldl_parse_texts (lines : List (List Char)) :
    ∀ s : ParseState,
      (flushDiffs (lines.foldl processLine s)).map CodeDiff.diff_text =
        s.diffs.map CodeDiff.diff_text ++
          gTexts s.current_file_path.isSome s.current_diff_lines lines := by
  induction lines with
  | nil =>
    intro s
    rw [List.foldl_nil, flushDiffs_texts, gTexts_nil]
  | cons l r ih =>
    intro s
    rw [List.foldl_cons, gTexts_cons]
    by_cases hH : startsWith hdrTok l = true
    · rw [processLine_header s l hH, ih, if_pos hH]
      dsimp only
      rw [flushDiffs_texts, List.append_assoc]
    · obtain ⟨hd, hl, hp⟩ := processLine_nonheader s l hH
      rw [ih, hd, hl, hp, if_neg hH]
      cases hpo : (pathOf l).isSome with
      | true => simp
      | false => simp

/-- Inside a section under the path discipline, the emission trace is
exactly the remaining sections (each closed by the next header or the end),
joined in input order. -/
theorem scanOk_gTexts (r : List (List Char)) :
    ∀ (seen p : Bool) (cur : List (List Char)), scanOk seen r = true →
      (seen = true → p = true) → cur ≠ [] →
      gTexts p cur r = (sectionsAux cur r).map joinLines := by
  induction r with
  | nil =>
    intro seen p cur hs hp hc
    rcases cur with _ | ⟨x, xs⟩
    · exact absurd rfl hc
    · rw [hp hs]
      rfl
  | cons l r2 ih =>
    intro seen p cur hs hp hc
    rw [scanOk_cons] at hs
    rw [gTexts_cons, sectionsAux_cons]
    by_cases hH : startsWith hdrTok l = true
    · rw [if_pos hH] at hs
      rw [if_pos hH, if_pos hH]
      simp only [Bool.and_eq_true] at hs
      obtain ⟨hseen, hrest⟩ := hs
      rw [hp hseen]
      rw [ih false true [l] hrest (fun hc2 => absurd hc2 (by simp)) (by simp)]
      rcases cur with _ | ⟨x, xs⟩
      · exact absurd rfl hc
      · rfl
    · rw [if_neg hH] at hs
      rw [if_neg hH, if_neg hH]
      by_cases hP : (pathOf l).isSome = true
      · rw [if_pos hP] at hs
        rw [if_pos hP]
        exact ih true true (cur ++ [l]) hs (fun _ => rfl) (by simp)
      · rw [if_neg hP] at hs
        rw [if_neg hP]
        exact ih seen p (cur ++ [l]) hs hp (by simp)

/-- Under the `topOk` discipline the parse's emission trace is exactly the
header-delimited sections of the input, joined, in input order. -/
theorem topOk_gTexts (ls : List (List Char)) :
    ∀ cur : List (List Char), topOk ls = true →
      gTexts false cur ls = (headerSections ls).map joinLines := by
  induction ls with
  | nil =>
    intro cur _
    rfl
  | cons l r ih =>
    intro cur ht
    rw [topOk_cons] at ht
    rw [gTexts_cons, headerSections_cons]
    by_cases hH : startsWith hdrTok l = true
    · rw [if_pos hH] at ht
      rw [if_pos hH, if_pos hH]
      rw [if_neg (by simp : ¬ ((false && !cur.isEmpty) = true)), List.nil_append]
      exact scanOk_gTexts r false false [l] ht (fun hc => absurd hc (by simp)) (by simp)
    · rw [if_neg hH] at ht
      rw [if_neg hH, if_neg hH]
      by_cases hP : (pathOf l).isSome = true
      · rw [if_pos hP] at ht
        exact absurd ht (by simp)
      · rw [if_neg hP] at ht
        rw [if_neg hP]
        exact ih (cur ++ [l]) ht

/-- Claim C2, counterexample: an input consisting of exactly one
`diff --git` header (and no old-file-path line) contains k = 1 header but
parses to 0 records — emission requires a `--- a/<path>` line, not just the
header. -/
theorem c2_counterexample :
    parse_diff ("diff --git a/f b/f".toList) = [] ∧
    countGitHeaders (splitLines ("diff --git a/f b/f".toList)) = 1 :=
  ⟨by decide, by decide⟩

/-- Claim C2 (amended): for every input in which no `--- a/<path>` line
precedes the first `diff --git` header and every header-opened section
contains at least one `--- a/<path>` line (the `topOk` discipline),
`parse_diff` returns exactly k records for k `diff --git` headers, in input
order: the returned records' raw texts are, in order, exactly the
header-delimited sections of the input (each running from its `diff --git`
header up to just before the next). -/
theorem c2_amended (text : List Char) (h : topOk (splitLines text) = true) :
    (parse_diff text).length = countGitHeaders (splitLines text) ∧
    (parse_diff text).map CodeDiff.diff_text =
      (headerSections (splitLines text)).map joinLines := by
  constructor
  · unfold parse_diff
    rw [foldl_parse_count (splitLines text) initState]
    have h0 : (initState.diffs).length = 0 := rfl
    rw [h0]
    have h1 : initState.current_file_path.isSome = false := rfl
    have h2 : (!initState.current_diff_lines.isEmpty) = false := rfl
    rw [h1, h2, Nat.zero_add]
    exact topOk_gCount (splitLines text) false h
  · unfold parse_diff
    rw [foldl_parse_texts (splitLines text) initState]
    have h0 : initState.diffs.map CodeDiff.diff_text = [] := rfl
    have h1 : initState.current_file_path.isSome = false := rfl
    have h2 : initState.current_diff_lines = ([] : List (List Char)) := rfl
    rw [h0, h1, h2, List.nil_append]
    exact topOk_gTexts (splitLines text) [] h

set_option maxRecDepth 100000 in
/-- Claim C2 witness: the amended theorem applied to a concrete two-header
input satisfying the discipline; it parses to exactly 2 records whose raw
texts are the two sections in input order — their file paths evaluate to
`one` and `two` in input order as well. -/
theorem c2_amended_witness :
    topOk (splitLines twoFileDiff) = true ∧
    (parse_diff twoFileDiff).map CodeDiff.file_path = ["one".toList, "two".toList] ∧
    ((parse_diff twoFileDiff).length = countGitHeaders (splitLines twoFileDiff) ∧
      (parse_diff twoFileDiff).map CodeDiff.diff_text =
        (headerSections (splitLines twoFileDiff)).map joinLines) :=
  ⟨by decide, by decide, c2_amended twoFileDiff (by decide)⟩

/-! ## Claims C7 and C9: line/section machinery -/

/-- Unfolding equation of `splitLines` on a cons cell. -/
theorem splitLines_cons (c : Char) (rest : List Char) :
    splitLines (c :: rest) =
      if c = '\n' then [] :: splitLines rest
      else
        match splitLines rest with
        | [] => [[c]]
        | l :: ls => (c :: l) :: ls := rfl

/-- A newline-free chunk splits to itself. -/
theorem splitLines_no_newline (l : List Char) (h : '\n' ∉ l) :
    splitLines l = [l] := by
  induction l with
  | nil => rfl
  | cons c cs ih =>
    have hc : c ≠ '\n' := fun hc => h (hc ▸ List.mem_cons_self c cs)
    have hcs : '\n' ∉ cs := fun hm => h (List.mem_cons_of_mem c hm)
    rw [splitLines_cons, if_neg hc, ih hcs]

/-- Splitting after a newline-free first line peels it off. -/
theorem splitLines_append (l t : List Char) (h : '\n' ∉ l) :
    splitLines (l ++ '\n' :: t) = l :: splitLines t := by
  induction l with
  | nil =>
    rw [List.nil_append, splitLines_cons, if_pos rfl]
  | cons c cs ih =>
    have hc : c ≠ '\n' := fun hc => h (hc ▸ List.mem_cons_self c cs)
    have hcs : '\n' ∉ cs := fun hm => h (List.mem_cons_of_mem c hm)
    rw [List.cons_append, splitLines_cons, if_neg hc, ih hcs]

/-- Splitting is a left inverse of joining for non-empty lists of
newline-free lines — the shape of the parser's line loop input. -/
theorem splitLines_joinLines (ls : List (List Char)) (hne : ls ≠ [])
    (h : ∀ l ∈ ls, '\n' ∉ l) : splitLines (joinLines ls) = ls := by
  induction ls with
  | nil => exact absurd rfl hne
  | cons l rest ih =>
    cases rest with
    | nil =>
      exact splitLines_no_newline l (h l (List.mem_cons_self l []))
    | cons l2 rest2 =>
      have : joinLines (l :: l2 :: rest2) = l ++ '\n' :: joinLines (l2 :: rest2) := rfl
      rw [this, splitLines_append l _ (h l (List.mem_cons_self l _)),
        ih (by simp) (fun x hx => h x (List.mem_cons_of_mem l hx))]

/-- Joining a list whose first line is non-empty yields non-empty text. -/
theorem joinLines_ne_nil (l : List Char) (ls : List (List Char)) (h : l ≠ []) :
    joinLines (l :: ls) ≠ [] := by
  cases ls with
  | nil => exact h
  | cons l2 rest => simp [joinLines]

/-- A string with a prefix of head `c` does not also have a prefix whose
head differs from `c`. -/
theorem startsWith_false_of_head {c d : Char} {p q s : List Char}
    (hne : d ≠ c) (h : startsWith (c :: p) s = true) :
    startsWith (d :: q) s = false := by
  cases s with
  | nil => exact absurd h (by simp [startsWith])
  | cons e es =>
    unfold startsWith at h ⊢
    simp only [Bool.and_eq_true, decide_eq_true_eq] at h
    simp [h.1 ▸ hne]

/-- A string starting with a `startsWith`-prefix is non-empty when the
prefix is. -/
theorem ne_nil_of_startsWith {c : Char} {p s : List Char}
    (h : startsWith (c :: p) s = true) : s ≠ [] := by
  cases s with
  | nil => exact absurd h (by simp [startsWith])
  | cons e es => simp

/-- Every branch of the loop below a hunk keeps the section invariants:
records, content accumulators and both line-number lists stay untouched, the
raw accumulator grows by the line, the hunk flag stays off, and the path can
only be set by an old-file-path line. -/
theorem processLine_prehunk (s : ParseState) (l : List Char)
    (hh : startsWith hdrTok l = false) (hq : startsWith atat l = false)
    (hs : s.in_hunk = false) :
    (processLine s l).in_hunk = false ∧
    (processLine s l).added_lines = s.added_lines ∧
    (processLine s l).removed_lines = s.removed_lines ∧
    (processLine s l).old_content_lines = s.old_content_lines ∧
    (processLine s l).new_content_lines = s.new_content_lines ∧
    (processLine s l).diffs = s.diffs ∧
    (processLine s l).current_diff_lines = s.current_diff_lines ++ [l] ∧
    (processLine s l).current_file_path.isSome =
      ((pathOf l).isSome || s.current_file_path.isSome) := by
  unfold processLine
  rw [if_neg (by simp [hh])]
  split_ifs with h2 h3 h4
  · refine ⟨hs, rfl, rfl, rfl, rfl, rfl, rfl, ?_⟩
    rcases hpo : pathOf l with _ | p <;> simp [hpo]
  · refine ⟨hs, rfl, rfl, rfl, rfl, rfl, rfl, ?_⟩
    rw [pathOf_none_of_not_minus3 l h2]
    simp
  · exact absurd h4 (by simp [hq])
  · refine ⟨hs, rfl, rfl, rfl, rfl, rfl, rfl, ?_⟩
    rw [pathOf_none_of_not_minus3 l h2]
    simp

/-- Folding a run of header-free, hunk-header-free lines below a hunk
preserves the section invariants and records whether a path line occurred. -/
theorem foldl_prehunk (rest : List (List Char)) :
    ∀ s : ParseState, s.in_hunk = false →
      (∀ l ∈ rest, startsWith hdrTok l = false ∧ startsWith atat l = false) →
      (rest.foldl processLine s).in_hunk = false ∧
      (rest.foldl processLine s).added_lines = s.added_lines ∧
      (rest.foldl processLine s).removed_lines = s.removed_lines ∧
      (rest.foldl processLine s).old_content_lines = s.old_content_lines ∧
      (rest.foldl processLine s).new_content_lines = s.new_content_lines ∧
      (rest.foldl processLine s).diffs = s.diffs ∧
      (rest.foldl processLine s).current_diff_lines = s.current_diff_lines ++ rest ∧
      (rest.foldl processLine s).current_file_path.isSome =
        (rest.any (fun l => (pathOf l).isSome) || s.current_file_path.isSome) := by
  induction rest with
  | nil =>
    intro s hs _
    simp [hs]
  | cons l r ih =>
    intro s hs hr
    rw [List.foldl_cons]
    obtain ⟨hh, hq⟩ := hr l (List.mem_cons_self l r)
    obtain ⟨p1, p2, p3, p4, p5, p6, p7, p8⟩ := processLine_prehunk s l hh hq hs
    obtain ⟨q1, q2, q3, q4, q5, q6, q7, q8⟩ :=
      ih (processLine s l) p1 (fun x hx => hr x (List.mem_cons_of_mem l hx))
    refine ⟨q1, q2.trans p2, q3.trans p3, q4.trans p4, q5.trans p5, q6.trans p6, ?_, ?_⟩
    · rw [q7, p7, List.append_assoc, List.singleton_append]
    · rw [q8, p8, List.any_cons]
      cases pathOf l <;> cases r.any (fun l => (pathOf l).isSome) <;> simp

/-! ## Claim C7 -/

/-- A line carrying a non-empty `startsWith` prefix token is non-empty; in
particular a header line is. -/
theorem hdr_ne_nil (hdr : List Char) (hh : startsWith hdrTok hdr = true) :
    hdr ≠ [] := by
  cases hdr with
  | nil => exact absurd hh (by decide)
  | cons c cs => simp

/-- The flush on a state with a set path and accumulated lines appends
exactly the record of the accumulators. -/
theorem flushDiffs_emit (s : ParseState) (p : List Char)
    (hp : s.current_file_path = some p) (hl : s.current_diff_lines ≠ []) :
    flushDiffs s = s.diffs ++
      [{ file_path := p,
         old_content := if s.old_content_lines ≠ [] then
             some (joinLines s.old_content_lines) else none,
         new_content := if s.new_content_lines ≠ [] then
             some (joinLines s.new_content_lines) else none,
         added_lines := s.added_lines, removed_lines := s.removed_lines,
         diff_text := joinLines s.current_diff_lines }] := by
  unfold flushDiffs
  rw [hp]
  dsimp only
  rw [if_pos hl]

/-- Claim C7, counterexample: a file header alone (no hunks, but also no
`--- a/<path>` line) yields *no* record at all — the presence of a file
header is not sufficient for emission. -/
theorem c7_counterexample :
    parse_diff ("diff --git a/f b/f".toList) = [] ∧
    startsWith hdrTok ("diff --git a/f b/f".toList) = true :=
  ⟨by decide, by decide⟩

/-- Claim C7 (amended): a section made of a file header followed by any
header-free, hunk-free lines *including an old-file-path line* still yields
exactly one record whose added/removed line lists are empty, whose old/new
content fields are empty, and whose raw text is non-empty — hunks are not
required for emission, but the `--- a/<path>` line (which the header alone
does not provide) is. -/
theorem c7_amended (hdr : List Char) (rest : List (List Char))
    (hh : startsWith hdrTok hdr = true)
    (hnl1 : '\n' ∉ hdr) (hnl2 : ∀ l ∈ rest, '\n' ∉ l)
    (hrest : ∀ l ∈ rest, startsWith hdrTok l = false ∧ startsWith atat l = false)
    (hpath : rest.any (fun l => (pathOf l).isSome) = true) :
    ∃ d, parse_diff (joinLines (hdr :: rest)) = [d] ∧
      d.added_lines = [] ∧ d.removed_lines = [] ∧
      d.old_content = none ∧ d.new_content = none ∧ d.diff_text ≠ [] := by
  unfold parse_diff
  rw [splitLines_joinLines (hdr :: rest) (by simp)
    (by
      intro l hl
      rcases List.mem_cons.mp hl with h | h
      · exact h ▸ hnl1
      · exact hnl2 l h)]
  have hseq : processLine initState hdr = postHeaderState hdr := by
    rw [processLine_header initState hdr hh]
    rfl
  rw [List.foldl_cons, hseq]
  obtain ⟨q1, q2, q3, q4, q5, q6, q7, q8⟩ :=
    foldl_prehunk rest (postHeaderState hdr) rfl hrest
  rw [hpath] at q8
  obtain ⟨p, hp⟩ := Option.isSome_iff_exists.mp (by simpa using q8)
  rw [flushDiffs_emit _ p hp (by rw [q7]; simp [postHeaderState])]
  rw [q6]
  refine ⟨_, rfl, q2, q3, ?_, ?_, ?_⟩
  · rw [q4]
    simp [postHeaderState]
  · rw [q5]
    simp [postHeaderState]
  · have h9 : (postHeaderState hdr).current_diff_lines = [hdr] := rfl
    rw [q7, h9, List.singleton_append]
    exact joinLines_ne_nil hdr rest (hdr_ne_nil hdr hh)

set_option maxRecDepth 40000 in
/-- Claim C7 witness: a concrete header-plus-path section with no hunk,
through the amended theorem. -/
theorem c7_amended_witness :
    ∃ d, parse_diff (joinLines ["diff --git a/f b/f".toList,
        "--- a/f".toList, "+++ b/f".toList]) = [d] ∧
      d.added_lines = [] ∧ d.removed_lines = [] ∧
      d.old_content = none ∧ d.new_content = none ∧ d.diff_text ≠ [] :=
  c7_amended ("diff --git a/f b/f".toList)
    ["--- a/f".toList, "+++ b/f".toList]
    (by decide) (by decide) (by decide) (by decide) (by decide)

/-! ## Claim C9 -/

/-- Counting step for additions. -/
theorem countAddLines_cons (l : List Char) (r : List (List Char)) :
    countAddLines (l :: r) =
      (if startsWith ("+".toList) l && !startsWith plus3 l then 1 else 0) +
        countAddLines r := by
  unfold countAddLines
  rw [List.filter_cons]
  by_cases hc : (startsWith ("+".toList) l && !startsWith plus3 l) = true
  · rw [if_pos hc, if_pos hc, List.length_cons]
    omega
  · rw [if_neg hc, if_neg hc]
    omega

/-- Counting step for removals. -/
theorem countRemLines_cons (l : List Char) (r : List (List Char)) :
    countRemLines (l :: r) =
      (if startsWith ("-".toList) l && !startsWith minus3 l then 1 else 0) +
        countRemLines r := by
  unfold countRemLines
  rw [List.filter_cons]
  by_cases hc : (startsWith ("-".toList) l && !startsWith minus3 l) = true
  · rw [if_pos hc, if_pos hc, List.length_cons]
    omega
  · rw [if_neg hc, if_neg hc]
    omega

/-- A `---`-marker line is not an addition line. -/
theorem plus_false_of_minus3 (l : List Char) (h : startsWith minus3 l = true) :
    startsWith ("+".toList) l = false :=
  startsWith_false_of_head (by decide)
    (show startsWith ('-' :: "--".toList) l = true from h)

/-- A `+++`-marker line is not a removal line. -/
theorem minus_false_of_plus3 (l : List Char) (h : startsWith plus3 l = true) :
    startsWith ("-".toList) l = false :=
  startsWith_false_of_head (by decide)
    (show startsWith ('+' :: "++".toList) l = true from h)

/-- A `+`-prefixed line is not `-`-prefixed. -/
theorem minus_false_of_plus1 (l : List Char) (h : startsWith ("+".toList) l = true) :
    startsWith ("-".toList) l = false :=
  startsWith_false_of_head (by decide)
    (show startsWith ('+' :: ([] : List Char)) l = true from h)

/-- A `-`-prefixed line is not `+`-prefixed. -/
theorem plus_false_of_minus1 (l : List Char) (h : startsWith ("-".toList) l = true) :
    startsWith ("+".toList) l = false :=
  startsWith_false_of_head (by decide)
    (show startsWith ('-' :: ([] : List Char)) l = true from h)

/-- A context line (space-prefixed) is neither an addition nor a removal. -/
theorem plusminus_false_of_space (l : List Char) (h : startsWith (" ".toList) l = true) :
    startsWith ("+".toList) l = false ∧ startsWith ("-".toList) l = false :=
  ⟨startsWith_false_of_head (by decide)
    (show startsWith (' ' :: ([] : List Char)) l = true from h),
   startsWith_false_of_head (by decide)
    (show startsWith (' ' :: ([] : List Char)) l = true from h)⟩

/-- Every loop branch taken on a line inside a hunk (that is neither a file
header nor a hunk header): records stay, raw lines grow, the hunk flag stays
on, and the two line-number lists grow by exactly the addition/removal
indicator of the line. -/
theorem processLine_inhunk (s : ParseState) (l : List Char)
    (hh : startsWith hdrTok l = false) (hq : startsWith atat l = false)
    (hs : s.in_hunk = true) :
    (processLine s l).in_hunk = true ∧
    (processLine s l).diffs = s.diffs ∧
    (processLine s l).current_diff_lines = s.current_diff_lines ++ [l] ∧
    (processLine s l).added_lines.length =
      s.added_lines.length +
        (if startsWith ("+".toList) l && !startsWith plus3 l then 1 else 0) ∧
    (processLine s l).removed_lines.length =
      s.removed_lines.length +
        (if startsWith ("-".toList) l && !startsWith minus3 l then 1 else 0) ∧
    (processLine s l).current_file_path.isSome =
      ((pathOf l).isSome || s.current_file_path.isSome) := by
  unfold processLine
  rw [if_neg (show ¬ startsWith hdrTok l = true by simp [hh])]
  rw [if_neg (show ¬ startsWith atat l = true by simp [hq])]
  rw [if_neg (show ¬ s.in_hunk = false by simp [hs])]
  by_cases h2 : startsWith minus3 l = true
  · rw [if_pos h2]
    refine ⟨hs, rfl, rfl, ?_, ?_, ?_⟩
    · rw [plus_false_of_minus3 l h2]
      simp
    · rw [h2]
      simp
    · rcases hpo : pathOf l with _ | p <;> simp [hpo]
  · rw [if_neg h2]
    by_cases h3 : startsWith plus3 l = true
    · rw [if_pos h3]
      refine ⟨hs, rfl, rfl, ?_, ?_, ?_⟩
      · rw [h3]
        simp
      · rw [minus_false_of_plus3 l h3]
        simp
      · rw [pathOf_none_of_not_minus3 l h2]
        simp
    · rw [if_neg h3]
      by_cases h6 : (startsWith ("+".toList) l && !startsWith plus3 l) = true
      · rw [if_pos h6]
        have h6c := h6
        simp only [Bool.and_eq_true] at h6c
        obtain ⟨h6a, h6b⟩ := h6c
        refine ⟨hs, rfl, rfl, ?_, ?_, ?_⟩
        · rw [if_pos h6]
          simp
        · rw [minus_false_of_plus1 l h6a]
          simp
        · rw [pathOf_none_of_not_minus3 l h2]
          simp
      · rw [if_neg h6]
        by_cases h7 : (startsWith ("-".toList) l && !startsWith minus3 l) = true
        · rw [if_pos h7]
          have h7c := h7
          simp only [Bool.and_eq_true] at h7c
          obtain ⟨h7a, h7b⟩ := h7c
          refine ⟨hs, rfl, rfl, ?_, ?_, ?_⟩
          · rw [if_neg h6]
            simp
          · rw [if_pos h7]
            simp
          · rw [pathOf_none_of_not_minus3 l h2]
            simp
        · rw [if_neg h7]
          by_cases h8 : startsWith (" ".toList) l = true
          · rw [if_pos h8]
            refine ⟨hs, rfl, rfl, ?_, ?_, ?_⟩
            · rw [if_neg h6]
              simp
            · rw [if_neg h7]
              simp
            · rw [pathOf_none_of_not_minus3 l h2]
              simp
          · rw [if_neg h8]
            refine ⟨hs, rfl, rfl, ?_, ?_, ?_⟩
            · rw [if_neg h6]
              simp
            · rw [if_neg h7]
              simp
            · rw [pathOf_none_of_not_minus3 l h2]
              simp

/-- The hunk-header branch: sets the hunk flag, (re)initializes only the
counters, appends the raw line, and leaves everything else alone. -/
theorem processLine_atat (s : ParseState) (l : List Char)
    (hq : startsWith atat l = true) :
    (processLine s l).in_hunk = true ∧
    (processLine s l).diffs = s.diffs ∧
    (processLine s l).current_diff_lines = s.current_diff_lines ++ [l] ∧
    (processLine s l).added_lines = s.added_lines ∧
    (processLine s l).removed_lines = s.removed_lines ∧
    (processLine s l).old_content_lines = s.old_content_lines ∧
    (processLine s l).new_content_lines = s.new_content_lines ∧
    (processLine s l).current_file_path = s.current_file_path := by
  have h1 : startsWith hdrTok l = false :=
    startsWith_false_of_head (by decide)
      (show startsWith ('@' :: "@".toList) l = true from hq)
  have h2 : startsWith minus3 l = false :=
    startsWith_false_of_head (by decide)
      (show startsWith ('@' :: "@".toList) l = true from hq)
  have h3 : startsWith plus3 l = false :=
    startsWith_false_of_head (by decide)
      (show startsWith ('@' :: "@".toList) l = true from hq)
  unfold processLine
  rw [if_neg (by simp [h1]), if_neg (by simp [h2]), if_neg (by simp [h3]),
    if_pos hq]
  exact ⟨rfl, rfl, rfl, rfl, rfl, rfl, rfl, rfl⟩

/-- Folding the body of a hunk: the added/removed list lengths grow exactly
by the counts of `+`/`-` prefixed body lines (markers excluded). -/
theorem foldl_inhunk (body : List (List Char)) :
    ∀ s : ParseState, s.in_hunk = true →
      (∀ l ∈ body, startsWith hdrTok l = false ∧ startsWith atat l = false) →
      (body.foldl processLine s).in_hunk = true ∧
      (body.foldl processLine s).diffs = s.diffs ∧
      (body.foldl processLine s).current_diff_lines = s.current_diff_lines ++ body ∧
      (body.foldl processLine s).added_lines.length =
        s.added_lines.length + countAddLines body ∧
      (body.foldl processLine s).removed_lines.length =
        s.removed_lines.length + countRemLines body ∧
      (body.foldl processLine s).current_file_path.isSome =
        (body.any (fun l => (pathOf l).isSome) || s.current_file_path.isSome) := by
  induction body with
  | nil =>
    intro s hs _
    simp [hs, countAddLines, countRemLines]
  | cons l r ih =>
    intro s hs hr
    rw [List.foldl_cons]
    obtain ⟨hh, hq⟩ := hr l (List.mem_cons_self l r)
    obtain ⟨p1, p2, p3, p4, p5, p6⟩ := processLine_inhunk s l hh hq hs
    obtain ⟨q1, q2, q3, q4, q5, q6⟩ :=
      ih (processLine s l) p1 (fun x hx => hr x (List.mem_cons_of_mem l hx))
    refine ⟨q1, q2.trans p2, ?_, ?_, ?_, ?_⟩
    · rw [q3, p3, List.append_assoc, List.singleton_append]
    · rw [q4, p4, countAddLines_cons]
      omega
    · rw [q5, p5, countRemLines_cons]
      omega
    · rw [q6, p6, List.any_cons]
      cases pathOf l <;> cases r.any (fun l => (pathOf l).isSome) <;> simp

/-- Claim C9: for a single-file diff with one hunk — a header, then
hunk-free preamble lines including the old-file-path line, then one hunk
header and its body — the parsed record's `addedLines` length equals the
number of `+`-prefixed body lines (the `+++` marker excluded) and its
`removedLines` length equals the number of `-`-prefixed body lines (the
`---` marker excluded). -/
theorem c9_roundtrip (hdr hline : List Char) (mid body : List (List Char))
    (hhdr : startsWith hdrTok hdr = true)
    (hhunk : startsWith atat hline = true)
    (hnl1 : '\n' ∉ hdr) (hnl2 : '\n' ∉ hline)
    (hnl3 : ∀ l ∈ mid, '\n' ∉ l) (hnl4 : ∀ l ∈ body, '\n' ∉ l)
    (hmid : ∀ l ∈ mid, startsWith hdrTok l = false ∧ startsWith atat l = false)
    (hmidpath : mid.any (fun l => (pathOf l).isSome) = true)
    (hbody : ∀ l ∈ body, startsWith hdrTok l = false ∧ startsWith atat l = false) :
    ∃ d, parse_diff (joinLines (hdr :: (mid ++ hline :: body))) = [d] ∧
      d.added_lines.length = countAddLines body ∧
      d.removed_lines.length = countRemLines body := by
  unfold parse_diff
  rw [splitLines_joinLines _ (by simp)
    (by
      intro l hl
      rcases List.mem_cons.mp hl with h | h
      · exact h ▸ hnl1
      rcases List.mem_append.mp h with h2 | h2
      · exact hnl3 l h2
      rcases List.mem_cons.mp h2 with h3 | h3
      · exact h3 ▸ hnl2
      · exact hnl4 l h3)]
  have hseq : processLine initState hdr = postHeaderState hdr := by
    rw [processLine_header initState hdr hhdr]
    rfl
  rw [List.foldl_cons, hseq, List.foldl_append, List.foldl_cons]
  obtain ⟨m1, m2, m3, m4, m5, m6, m7, m8⟩ :=
    foldl_prehunk mid (postHeaderState hdr) rfl hmid
  obtain ⟨a1, a2, a3, a4, a5, a6, a7, a8⟩ :=
    processLine_atat (mid.foldl processLine (postHeaderState hdr)) hline hhunk
  obtain ⟨b1, b2, b3, b4, b5, b6⟩ :=
    foldl_inhunk body (processLine (mid.foldl processLine (postHeaderState hdr)) hline)
      a1 hbody
  have hpathSome :
      ((body.foldl processLine
        (processLine (mid.foldl processLine (postHeaderState hdr)) hline)).current_file_path).isSome = true := by
    rw [b6, a8, m8, hmidpath]
    simp
  obtain ⟨p, hp⟩ := Option.isSome_iff_exists.mp hpathSome
  have hlines :
      (body.foldl processLine
        (processLine (mid.foldl processLine (postHeaderState hdr)) hline)).current_diff_lines ≠ [] := by
    rw [b3, a3, m7]
    have h9 : (postHeaderState hdr).current_diff_lines = [hdr] := rfl
    rw [h9]
    simp
  rw [flushDiffs_emit _ p hp hlines]
  have hdiffs :
      (body.foldl processLine
        (processLine (mid.foldl processLine (postHeaderState hdr)) hline)).diffs = [] := by
    rw [b2, a2, m6]
    rfl
  rw [hdiffs, List.nil_append]
  refine ⟨_, rfl, ?_, ?_⟩
  · rw [b4, a4, m2]
    have h10 : (postHeaderState hdr).added_lines = [] := rfl
    rw [h10]
    simp
  · rw [b5, a5, m3]
    have h10 : (postHeaderState hdr).removed_lines = [] := rfl
    rw [h10]
    simp

set_option maxRecDepth 40000 in
/-- Claim C9 witness: a concrete one-file, one-hunk diff with two added and
one removed line, through the round-trip theorem. -/
theorem c9_roundtrip_witness :
    ∃ d, parse_diff (joinLines (("diff --git a/f b/f".toList) ::
        (["--- a/f".toList, "+++ b/f".toList] ++
          ("@@ -1,2 +1,3 @@".toList) ::
            ["+new1".toList, " ctx".toList, "-old".toList, "+new2".toList]))) = [d] ∧
      d.added_lines.length =
        countAddLines ["+new1".toList, " ctx".toList, "-old".toList, "+new2".toList] ∧
      d.removed_lines.length =
        countRemLines ["+new1".toList, " ctx".toList, "-old".toList, "+new2".toList] :=
  c9_roundtrip ("diff --git a/f b/f".toList) ("@@ -1,2 +1,3 @@".toList)
    ["--- a/f".toList, "+++ b/f".toList]
    ["+new1".toList, " ctx".toList, "-old".toList, "+new2".toList]
    (by decide) (by decide) (by decide) (by decide) (by decide) (by decide)
    (by decide) (by decide) (by decide)

